import Mathlib

/-!
Verification development for the cypress geocoding pipeline.

This file gives a shallow embedding, in Lean 4, of the parts of the
cypress source that the specification claims talk about, together with
theorems settling each claim.

Modelling conventions, applied uniformly:

* Rust `f64` values (coordinates, areas, scores, importance) are modelled
  as `ℚ`.  Transcendental operations on `f64` (`exp`, `sin`, `cos`,
  `sqrt`, `atan2`, `to_radians`) have no exact rational counterpart, so
  they are carried as an explicit record of function parameters
  (`FloatOps`); the theorems about scoring hold for every instantiation.
* Rust `HashMap<String, _>` values are modelled as association lists
  (`List (String × _)`); `get` is the first matching key, `insert`
  replaces an existing binding.  Iteration order of a Rust `HashMap` is
  unspecified, so nothing proved here depends on a particular order
  beyond what the source itself fixes.
* Rust `Vec::sort_by(cmp)` is a stable sort with respect to the total
  preorder `le a b := cmp(a,b) ≠ Greater`.  A stable sort of a list with
  respect to a total preorder is unique, so it is modelled by a stable
  insertion sort (`insertionSort` below) with that `le`.
* Loops that terminate because each iteration removes an element from a
  work list are modelled with an explicit fuel argument that is
  initialised to a sufficient bound; this keeps every definition
  structurally recursive and hence evaluable by `decide`.

Each definition names, in its doc comment, the source item it embeds.
-/

set_option linter.unusedVariables false

namespace Cypress


/-! ## Stable sorting

`orderedInsert`/`insertionSort` implement the unique stable sort with
respect to a Boolean total preorder `le`, which is how `Vec::sort_by`
behaves for the comparators used in the sources (all of which are total
preorders).  The lemmas below give the permutation, sortedness and
head-is-minimum facts needed by the claims. -/

def orderedInsert (le : α → α → Bool) (a : α) : List α → List α
  | [] => [a]
  | b :: l => if le a b then a :: b :: l else b :: orderedInsert le a l

def insertionSort (le : α → α → Bool) : List α → List α
  | [] => []
  | a :: l => orderedInsert le a (insertionSort le l)

/-! ## Association lists

Model of Rust `HashMap<String, V>` / `HashMap<SmolStr, SmolStr>` as used
by the sources: `lookupKV` is `get` (first matching binding) and
`insertKV` is `insert` (replace an existing binding, else append). -/

def lookupKV {V : Type} (l : List (String × V)) (k : String) : Option V :=
  match l.find? (fun kv => kv.1 = k) with
  | some kv => some kv.2
  | none => none

def insertKV {V : Type} (l : List (String × V)) (k : String) (v : V) :
    List (String × V) :=
  if l.any (fun kv => kv.1 = k) then
    l.map (fun kv => if kv.1 = k then (k, v) else kv)
  else l ++ [(k, v)]

/-! ## Data model (`src/models/admin.rs`, `src/models/place.rs`)

Coordinates and other `f64` values are `ℚ`.  `AdminLevel` is the enum of
`src/models/admin.rs`; its `Ord` is the Rust derived order (declaration
order, `Country` least). -/

/-- `AdminLevel` from `src/models/admin.rs`. -/

inductive AdminLevel where
  | Country
  | MacroRegion
  | Region
  | MacroCounty
  | County
  | LocalAdmin
  | Locality
  | Borough
  | Neighbourhood
deriving DecidableEq, Repr

namespace AdminLevel

/-- Position in declaration order; the derived Rust `Ord` compares by
this, so `Country` is least and `Neighbourhood` greatest. -/

def toIdx : AdminLevel → Nat
  | Country => 0
  | MacroRegion => 1
  | Region => 2
  | MacroCounty => 3
  | County => 4
  | LocalAdmin => 5
  | Locality => 6
  | Borough => 7
  | Neighbourhood => 8

/-- `AdminLevel::from_osm_level` from `src/models/admin.rs`. -/

def from_osm_level (level : Nat) : Option AdminLevel :=
  match level with
  | 2 => some Country
  | 3 => some MacroRegion
  | 4 => some Region
  | 5 => some MacroCounty
  | 6 => some County
  | 7 => some LocalAdmin
  | 8 => some Locality
  | 9 => some Borough
  | 10 => some Neighbourhood
  | 11 => some Neighbourhood
  | _ => none

/-- `AdminLevel::all` from `src/models/admin.rs`: hierarchical order,
country first. -/

def all : List AdminLevel :=
  [Country, MacroRegion, Region, MacroCounty, County, LocalAdmin,
   Locality, Borough, Neighbourhood]

end AdminLevel

/-- `Layer` as consumed by `src/query/search.rs` (`get_layer_rank`
matches all thirteen variants listed in the spec, §3); the stripped-down
eight-variant enum in `src/models/place.rs` is a proper subset of this
one, and the search code is the code the layer-rank claim cites. -/

inductive Layer where
  | Venue
  | Address
  | Street
  | Admin
  | Neighbourhood
  | Locality
  | County
  | Region
  | MacroCounty
  | MacroRegion
  | LocalAdmin
  | Borough
  | Country
deriving DecidableEq, Repr

/-- `OsmType` from `src/models/place.rs`. -/

inductive OsmType where
  | Node
  | Way
  | Relation
deriving DecidableEq, Repr

/-- `GeoPoint` from `src/models/place.rs` (`f64` as `ℚ`). -/

structure GeoPoint where
  lat : ℚ
  lon : ℚ
deriving DecidableEq, Repr

/-- `GeoBbox` from `src/models/place.rs`. -/

structure GeoBbox where
  geo_type : String
  coordinates : (ℚ × ℚ) × (ℚ × ℚ)
deriving DecidableEq, Repr

/-- `Address` from `src/models/place.rs`. -/

structure Address where
  housenumber : Option String
  street : Option String
  postcode : Option String
  city : Option String
deriving DecidableEq, Repr

/-- `AdminArea` from `src/models/admin.rs`.  The `iso_country_code`
field is read by `PipService::lookup` (`src/pip/service.rs`, which also
constructs it in its tests); its declaration is not part of the
`models/admin.rs` snapshot, so that one field is modelled from the spec:
`AdminArea` carries an optional `iso_country_code` derived from
`ISO3166-1:alpha2/alpha3` or parent-country attribution (spec §3). -/

structure AdminArea where
  osm_id : Int
  level : AdminLevel
  wikidata_id : Option String
  name : List (String × String)
  bbox : Option GeoBbox
  abbr : Option String
  iso_country_code : Option String
deriving DecidableEq, Repr

/-- `AdminArea::new` from `src/models/admin.rs`. -/

def AdminArea.new (osm_id : Int) (level : AdminLevel) : AdminArea :=
  { osm_id := osm_id, level := level, wikidata_id := none, name := [],
    bbox := none, abbr := none, iso_country_code := none }

/-- `AdminEntry` from `src/models/admin.rs`. -/

structure AdminEntry where
  name : Option String
  abbr : Option String
  id : Option Int
  bbox : Option GeoBbox
  names : List (String × String)
deriving DecidableEq, Repr

/-- `AdminEntry::from_area` from `src/models/admin.rs`: default name, or
the first available one (`HashMap::values().next()` modelled as the head
of the association list). -/

def AdminEntry.from_area (area : AdminArea) : AdminEntry :=
  let default_name :=
    match lookupKV area.name ("default") with
    | some n => some n
    | none => (area.name.head?).map (fun kv => kv.2)
  { name := default_name, abbr := area.abbr, id := some area.osm_id,
    bbox := area.bbox, names := area.name }

/-- `AdminHierarchy` from `src/models/admin.rs`. -/

structure AdminHierarchy where
  country : Option AdminEntry
  macro_region : Option AdminEntry
  region : Option AdminEntry
  macro_county : Option AdminEntry
  county : Option AdminEntry
  local_admin : Option AdminEntry
  locality : Option AdminEntry
  borough : Option AdminEntry
  neighbourhood : Option AdminEntry
deriving DecidableEq, Repr

/-- `AdminHierarchy::default()`. -/

def AdminHierarchy.empty : AdminHierarchy :=
  { country := none, macro_region := none, region := none,
    macro_county := none, county := none, local_admin := none,
    locality := none, borough := none, neighbourhood := none }

/-- `AdminHierarchy::set` from `src/models/admin.rs`. -/

def AdminHierarchy.set (h : AdminHierarchy) (level : AdminLevel)
    (entry : AdminEntry) : AdminHierarchy :=
  match level with
  | .Country => { h with country := some entry }
  | .MacroRegion => { h with macro_region := some entry }
  | .Region => { h with region := some entry }
  | .MacroCounty => { h with macro_county := some entry }
  | .County => { h with county := some entry }
  | .LocalAdmin => { h with local_admin := some entry }
  | .Locality => { h with locality := some entry }
  | .Borough => { h with borough := some entry }
  | .Neighbourhood => { h with neighbourhood := some entry }

/-- `AdminHierarchy::get` from `src/models/admin.rs`. -/

def AdminHierarchy.get (h : AdminHierarchy) (level : AdminLevel) :
    Option AdminEntry :=
  match level with
  | .Country => h.country
  | .MacroRegion => h.macro_region
  | .Region => h.region
  | .MacroCounty => h.macro_county
  | .County => h.county
  | .LocalAdmin => h.local_admin
  | .Locality => h.locality
  | .Borough => h.borough
  | .Neighbourhood => h.neighbourhood

/-! ## Geometry (`src/pip/geometry.rs`, `src/pip/boundary.rs`)

A coordinate is a `(x, y) = (lon, lat)` pair; a polygon is its exterior
ring (every polygon the sources build has an empty interior list); a
multipolygon is a list of polygons. -/

abbrev Coord : Type := ℚ × ℚ

abbrev MultiPolygon : Type := List (List Coord)

/-- Twice the signed area of a coordinate run, by the shoelace formula
over consecutive segments (how `geo`'s `Area` walks the exterior
`LineString` of a polygon). -/

def shoelaceTwice : List Coord → ℚ
  | a :: b :: rest => (a.1 * b.2 - b.1 * a.2) + shoelaceTwice (b :: rest)
  | _ => 0

/-- `geo::Area::unsigned_area` for one of our polygons (exterior ring
only, no interiors): the absolute value of the signed area. -/

def ringUnsignedArea (r : List Coord) : ℚ := |shoelaceTwice r / 2|

/-- `geo::Area::unsigned_area` for a `MultiPolygon`: the sum of the
member polygons' unsigned areas. -/

def unsigned_area (mp : MultiPolygon) : ℚ :=
  (mp.map ringUnsignedArea).sum

/-- One scan of the `for i in 0..remaining.len()` loop inside
`merge_rings_to_polygons` (`src/pip/geometry.rs:285-320`, identical in
`src/pip/boundary.rs`): find the first ring that connects to `current`
under one of the four orientation cases, return the extended chain and
the remaining rings (order preserved), or `none` when nothing connects.
`Vec::remove(0)` / `pop()` on the connecting ring are `tail` /
`dropLast`; the sources only ever pass coordinate runs of length ≥ 2, on
which this is exact. -/

def tryMergeOne (current : List Coord) :
    List (List Coord) → Option (List Coord × List (List Coord))
  | [] => none
  | ring :: rest =>
    if current.getLast? = ring.head? then
      some (current ++ ring.tail, rest)
    else if current.getLast? = ring.getLast? then
      some (current ++ ring.reverse.tail, rest)
    else if current.head? = ring.getLast? then
      some (ring.dropLast ++ current, rest)
    else if current.head? = ring.head? then
      some (ring.reverse.dropLast ++ current, rest)
    else
      match tryMergeOne current rest with
      | some (c, rem) => some (c, ring :: rem)
      | none => none

/-- The `while merged && !remaining.is_empty()` loop of
`merge_rings_to_polygons`: repeat `tryMergeOne` until no ring connects.
Each successful merge removes one ring, so fuel `remaining.length + 1`
is enough; fuel is only a structural-recursion device. -/

def mergeChain : Nat → List Coord → List (List Coord) →
    List Coord × List (List Coord)
  | 0, current, remaining => (current, remaining)
  | fuel + 1, current, remaining =>
    match tryMergeOne current remaining with
    | some (c, rem) => mergeChain fuel c rem
    | none => (current, remaining)

/-- The `// Close the ring if possible` tail of the outer loop of
`merge_rings_to_polygons` (`src/pip/geometry.rs:323-332`): a chain of at
least 3 points is closed by appending its first point when not already
closed, and emitted when the closed ring has at least 4 points; shorter
chains are dropped. -/

def closeEmit (c : List Coord) : List (List Coord) :=
  if 3 ≤ c.length then
    let closed := if c.head? = c.getLast? then c else c ++ c.head?.toList
    if 4 ≤ closed.length then [closed] else []
  else []

/-- The outer `while !remaining.is_empty()` loop of
`merge_rings_to_polygons`: take the first fragment; emit it unchanged if
already closed with ≥ 4 points; otherwise grow it by `mergeChain`, then
`closeEmit` it.  Each iteration consumes at least the head fragment, so
fuel `remaining.length` suffices. -/

def mergeLoop : Nat → List (List Coord) → List (List Coord)
  | 0, _ => []
  | _ + 1, [] => []
  | fuel + 1, current :: rest =>
    if current.head? = current.getLast? ∧ 4 ≤ current.length then
      current :: mergeLoop fuel rest
    else
      let step := mergeChain (rest.length + 1) current rest
      closeEmit step.1 ++ mergeLoop fuel step.2

/-- `merge_rings_to_polygons` from `src/pip/geometry.rs:263-336`
(text-identical private copy in `src/pip/boundary.rs:218-291`): merge
disconnected coordinate runs into closed polygons. -/

def merge_rings_to_polygons (rings : List (List Coord)) :
    List (List Coord) :=
  mergeLoop (rings.length + 1) rings

/-! ## Admin boundaries, spatial index and PIP service
(`src/pip/boundary.rs`, `src/pip/index.rs`, `src/pip/service.rs`) -/

/-- `AdminBoundary` from `src/pip/boundary.rs`. -/

structure AdminBoundary where
  area : AdminArea
  geometry : MultiPolygon
deriving DecidableEq

/-- `AdminSpatialIndex` from `src/pip/index.rs`.  The R-tree over
bounding envelopes is a conservative prefilter: a polygon lies inside
its own bounding envelope, so envelope intersection followed by exact
containment returns exactly the boundaries whose geometry contains the
point.  The index is therefore modelled by the list of boundaries
together with the exact containment predicate (`geo::Contains`, an
external collaborator, carried as a function parameter). -/

structure AdminSpatialIndex where
  boundaries : List AdminBoundary
  containsFn : MultiPolygon → Coord → Bool

/-- `AdminSpatialIndex::lookup` from `src/pip/index.rs:82-92`: all
boundaries whose geometry contains the point. -/

def AdminSpatialIndex.lookup (idx : AdminSpatialIndex) (lon lat : ℚ) :
    List AdminBoundary :=
  idx.boundaries.filter (fun b => idx.containsFn b.geometry (lon, lat))

/-- `PipService` from `src/pip/service.rs`. -/

structure PipService where
  index : AdminSpatialIndex

/-- Comparator of `boundaries_by_level.sort_by(|a, b|
b.area.level.cmp(&a.area.level))` (`src/pip/service.rs:46`): `a` may
stay before `b` iff `b.level ≤ a.level` (stable descending sort). -/

def levelDescLe (a b : AdminBoundary) : Bool :=
  b.area.level.toIdx ≤ a.area.level.toIdx

/-- Comparator of the per-level
`at_level.sort_by(area partial_cmp)` (`src/pip/service.rs:87-93`):
ascending unsigned area.  On `ℚ` the `partial_cmp ... unwrap_or(Equal)`
fallback never fires (no NaN). -/

def areaLe (a b : AdminBoundary) : Bool :=
  unsigned_area a.geometry ≤ unsigned_area b.geometry

/-- The containing-boundary list after the `limit_level` retain
(`src/pip/service.rs:26-31`). -/

def effectiveBoundaries (svc : PipService) (lon lat : ℚ)
    (limit_level : Option AdminLevel) : List AdminBoundary :=
  let boundaries := svc.index.lookup lon lat
  match limit_level with
  | some limit =>
    boundaries.filter (fun b => b.area.level.toIdx < limit.toIdx)
  | none => boundaries

/-- The forced-country-code computation of `PipService::lookup`
(`src/pip/service.rs:40-53`): sort by level descending (stable), then
take the `iso_country_code` of the first boundary that has one. -/

def forced_country_code (boundaries : List AdminBoundary) :
    Option String :=
  match (insertionSort levelDescLe boundaries).find?
      (fun b => b.area.iso_country_code.isSome) with
  | some b => b.area.iso_country_code
  | none => none

/-- Per-level candidate selection of `PipService::lookup`
(`src/pip/service.rs:60-82`): boundaries at the level, with the
country-code retain applied at `Country` when a code was forced. -/

def levelCandidates (boundaries : List AdminBoundary)
    (forced : Option String) (level : AdminLevel) : List AdminBoundary :=
  let at_level := boundaries.filter (fun b => b.area.level = level)
  if level = AdminLevel.Country then
    match forced with
    | some code =>
      at_level.filter (fun b =>
        b.area.iso_country_code = some code || b.area.abbr = some code)
    | none => at_level
  else at_level

/-- One iteration of the `for level in AdminLevel::all()` loop of
`PipService::lookup` (`src/pip/service.rs:60-99`): sort the candidates
by unsigned area ascending and set the slot from the head, if any. -/

def lookupStep (boundaries : List AdminBoundary) (forced : Option String)
    (h : AdminHierarchy) (level : AdminLevel) : AdminHierarchy :=
  match insertionSort areaLe (levelCandidates boundaries forced level) with
  | [] => h
  | b :: _ => h.set level (AdminEntry.from_area b.area)

/-- `PipService::lookup` from `src/pip/service.rs:22-102`. -/

def PipService.lookup (svc : PipService) (lon lat : ℚ)
    (limit_level : Option AdminLevel) : AdminHierarchy :=
  let boundaries := effectiveBoundaries svc lon lat limit_level
  let forced := forced_country_code boundaries
  AdminLevel.all.foldl (lookupStep boundaries forced) AdminHierarchy.empty

/-! Concrete fixtures for the C1 and C2 witnesses: overlapping country
rectangles with a region carrying an ISO code (the scenario of the
`test_country_enforcement` test in `src/pip/service.rs`), and an enclave
pair of same-level rectangles. -/

def wRect (x0 y0 x1 y1 : ℚ) : List Coord :=
  [(x0, y0), (x1, y0), (x1, y1), (x0, y1), (x0, y0)]

def wUsArea : AdminArea :=
  { AdminArea.new 1 AdminLevel.Country with abbr := some ("US") }

def wCaArea : AdminArea :=
  { AdminArea.new 2 AdminLevel.Country with abbr := some ("CA") }

def wOnArea : AdminArea :=
  { AdminArea.new 3 AdminLevel.Region with
      iso_country_code := some ("CA") }

def wSvc1 : PipService :=
  { index :=
    { boundaries :=
        [{ area := wUsArea, geometry := [wRect 0 0 10 10] },
         { area := wCaArea, geometry := [wRect 0 0 10 10] },
         { area := wOnArea, geometry := [wRect 5 5 6 6] }],
      containsFn := fun _ _ => true } }

def wEnclaveArea : AdminArea := AdminArea.new 10 AdminLevel.Country

def wOuterArea : AdminArea := AdminArea.new 11 AdminLevel.Country

def wSvc2 : PipService :=
  { index :=
    { boundaries :=
        [{ area := wOuterArea, geometry := [wRect 0 0 20 20] },
         { area := wEnclaveArea, geometry := [wRect 0 0 1 1] }],
      containsFn := fun _ _ => true } }

/-! ## C3: ring stitching -/

/-! ## C9: admin boundary extraction (`src/pip/boundary.rs:33-210`)

The three PBF passes of `extract_admin_boundaries` gather, for each
relation, its tags and the coordinate runs of its outer-role way
members; an input relation is modelled with those two ingredients
already resolved. -/

/-- An OSM relation as seen by `extract_admin_boundaries`: its tags and
the coordinate runs of its outer-role (`"outer"` or empty-role) way
members, as resolved by passes 2 and 3. -/

structure OsmRelation where
  id : Int
  tags : List (String × String)
  memberRings : List (List Coord)

/-- `Tags::get`. -/

def getTag (tags : List (String × String)) (k : String) : Option String :=
  lookupKV tags k

/-- `str::parse::<u8>()`: optional leading `+`, then decimal digits,
value at most 255. -/

def parseU8 (s : String) : Option Nat :=
  let cs :=
    match s.toList with
    | '+' :: rest => rest
    | cs => cs
  if cs = [] then none
  else if cs.all (fun c => c.isDigit) then
    let v := cs.foldl (fun acc c => acc * 10 + (c.toNat - ('0').toNat)) 0
    if v ≤ 255 then some v else none
  else none

/-- The key of a `name:<lang>` tag, when the key has that shape. -/

def langOfNameKey (k : String) : Option String :=
  match k.toList with
  | 'n' :: 'a' :: 'm' :: 'e' :: ':' :: rest => some (String.mk rest)
  | _ => none

/-- The `for (key, value) in rel.tags.iter()` loop of
`extract_admin_boundaries` (`src/pip/boundary.rs:80-93`): multilingual
names, `abbr` from `short_name` / `ISO3166-1:alpha2` /
`ISO3166-1:alpha3`, and `wikidata_id`. -/

def buildArea (osm_id : Int) (level : AdminLevel)
    (tags : List (String × String)) : AdminArea :=
  tags.foldl (fun area kv =>
    if kv.1 = "name" then
      { area with name := insertKV area.name ("default") kv.2 }
    else
      match langOfNameKey kv.1 with
      | some lang => { area with name := insertKV area.name lang kv.2 }
      | none =>
        if kv.1 = "short_name" ∨ kv.1 = "ISO3166-1:alpha2" ∨
            kv.1 = "ISO3166-1:alpha3" then
          { area with abbr := some kv.2 }
        else if kv.1 = "wikidata" then
          { area with wikidata_id := some kv.2 }
        else area) (AdminArea.new osm_id level)

/-- The pass-1 relation filter of `extract_admin_boundaries`
(`src/pip/boundary.rs:49-112`): requires `boundary=administrative`, a
parsable `admin_level` mapping to an `AdminLevel`, and at least one
name; no other tag is required at any level. -/

def parseAdminRelation (rel : OsmRelation) : Option AdminArea :=
  if getTag rel.tags ("boundary") = some ("administrative") then
    match getTag rel.tags ("admin_level") with
    | none => none
    | some level_str =>
      match parseU8 level_str with
      | none => none
      | some n =>
        match AdminLevel.from_osm_level n with
        | none => none
        | some level =>
          let area := buildArea rel.id level rel.tags
          if area.name = [] then none else some area
  else none

/-- `extract_admin_boundaries` from `src/pip/boundary.rs:33-210`: parse
each relation, keep coordinate runs of ≥ 3 points, stitch them into
polygons, drop relations with no resolvable geometry, and sort the
result by level ascending. -/

def extract_admin_boundaries (rels : List OsmRelation) :
    List AdminBoundary :=
  let bs := rels.filterMap (fun rel =>
    match parseAdminRelation rel with
    | none => none
    | some area =>
      let rings := rel.memberRings.filter (fun r => 3 ≤ r.length)
      if rings = [] then none
      else
        let polys := merge_rings_to_polygons rings
        if polys = [] then none
        else some { area := area, geometry := polys })
  insertionSort (fun a b => a.area.level.toIdx ≤ b.area.level.toIdx) bs

/-- A Country-level admin relation with no `ISO3166-1*` tag at all. -/

def c9Rel : OsmRelation :=
  { id := 1,
    tags := [("boundary", "administrative"), ("admin_level", "2"),
      ("name", "Testland")],
    memberRings := [[((0 : ℚ), (0 : ℚ)), (4, 0), (4, 4), (0, 4), (0, 0)]] }

/-! ## C5: bulk text indexer (`src/elasticsearch/bulk.rs`)

`run_indexer` is the background loop; the sequence of documents sent
over the channel is its input list.  The per-item outcome reported by
the bulk response is abstracted as a predicate `failP` on documents
(`item["index"]["error"].is_object()`).  Whole-batch transport failures
abort the task with an error and return no counts at all, so they are
outside the counting claim. -/

/-- `flush` from `src/elasticsearch/bulk.rs:98-175`: returns
`(count, batch_errors)` where `count` is the full batch length and
`batch_errors` the number of per-item failures. -/

def flushCounts {α : Type} (failP : α → Bool) (docs : List α) :
    Nat × Nat :=
  (docs.length, (docs.filter failP).length)

/-- The `while let Some(place) = rx.recv()` loop of `run_indexer`
(`src/elasticsearch/bulk.rs:53-95`), plus the final flush of the
remainder. -/

def runIndexerGo {α : Type} (failP : α → Bool) (batch_size : Nat)
    (buffer : List α) (total_indexed total_errors : Nat) :
    List α → Nat × Nat
  | [] =>
    if buffer.isEmpty then (total_indexed, total_errors)
    else (total_indexed + (flushCounts failP buffer).1,
      total_errors + (flushCounts failP buffer).2)
  | d :: rest =>
    let buf := buffer ++ [d]
    if batch_size ≤ buf.length then
      runIndexerGo failP batch_size []
        (total_indexed + (flushCounts failP buf).1)
        (total_errors + (flushCounts failP buf).2) rest
    else
      runIndexerGo failP batch_size buf total_indexed total_errors rest

/-- `run_indexer` from `src/elasticsearch/bulk.rs:53-95` (success path:
no whole-batch transport failure). -/

def run_indexer {α : Type} (failP : α → Bool) (batch_size : Nat)
    (docs : List α) : Nat × Nat :=
  runIndexerGo failP batch_size [] 0 0 docs

/-! ## Place and the two `AdminEntry` serializations
(`src/models/place.rs`, `src/models/admin.rs`, `src/ingest/main.rs`) -/

/-- `Place` from `src/models/place.rs` (`DateTime<Utc>` modelled as an
opaque integer timestamp). -/

structure Place where
  source_id : String
  source_file : String
  import_timestamp : Int
  osm_type : OsmType
  osm_id : Int
  wikidata_id : Option String
  importance : Option ℚ
  layer : Layer
  categories : List String
  name : List (String × String)
  phrase : Option String
  address : Option Address
  center_point : GeoPoint
  bbox : Option GeoBbox
  parent : AdminHierarchy

/-- JSON values, for stating which fields a serialization emits. -/

inductive Json where
  | str : String → Json
  | int : Int → Json
  | rat : ℚ → Json
  | arr : List Json → Json
  | obj : List (String × Json) → Json

/-- Top-level keys of a JSON object. -/

def Json.keys : Json → List String
  | .obj l => l.map (fun kv => kv.1)
  | _ => []

def optField (k : String) (v : Option Json) : List (String × Json) :=
  match v with
  | some j => [(k, j)]
  | none => []

/-- Serde serialization of `GeoBbox` (`src/models/place.rs:58-63`). -/

def GeoBbox.toJson (b : GeoBbox) : Json :=
  Json.obj [("type", .str b.geo_type),
    ("coordinates", .arr [.arr [.rat b.coordinates.1.1,
        .rat b.coordinates.1.2],
      .arr [.rat b.coordinates.2.1, .rat b.coordinates.2.2]])]

/-- The default (text-index) serde serialization of `AdminEntry`
(`src/models/admin.rs:145-169`): optional `name`, `abbr`, `id`, `bbox`
in declaration order; `names` carries `#[serde(skip)]` and is never
emitted. -/

def AdminEntry.toJson (e : AdminEntry) : Json :=
  Json.obj (optField ("name") (e.name.map .str) ++
    optField ("abbr") (e.abbr.map .str) ++
    optField ("id") (e.id.map .int) ++
    optField ("bbox") (e.bbox.map GeoBbox.toJson))

/-- `AdminEntry::to_scylla_json` (`src/models/admin.rs:171-198`): the
same four fields plus the full `names` map as a nested object, skipped
only when the map is empty. -/

def AdminEntry.to_scylla_json (e : AdminEntry) : Json :=
  Json.obj (optField ("name") (e.name.map .str) ++
    optField ("abbr") (e.abbr.map .str) ++
    optField ("id") (e.id.map .int) ++
    optField ("bbox") (e.bbox.map GeoBbox.toJson) ++
    (if e.names.isEmpty then []
     else [(("names"),
       Json.obj (e.names.map (fun kv => (kv.1, Json.str kv.2))))]))

/-- `upsert_admin_areas` from `src/ingest/main.rs:877-898`: for every
present admin parent with an `id`, write the pair
`("relation/<id>", json)` to the `admin_areas` table, where `json` is
`serde_json::to_string(parent)` — the DEFAULT serialization
(`AdminEntry.toJson`), not `to_scylla_json`. -/

def upsert_admin_areas (place : Place) : List (String × Json) :=
  let parents := [place.parent.country, place.parent.macro_region,
    place.parent.region, place.parent.macro_county, place.parent.county,
    place.parent.local_admin, place.parent.locality,
    place.parent.borough, place.parent.neighbourhood]
  (parents.filterMap id).filterMap (fun parent =>
    match parent.id with
    | some pid => some (("relation/") ++ toString pid,
        AdminEntry.toJson parent)
    | none => none)

/-- A concrete admin parent with a non-empty `names` map. -/

def c6Entry : AdminEntry :=
  { name := some ("Austria"), abbr := none, id := some 1, bbox := none,
    names := [("default", "Austria")] }

/-- A concrete place whose only admin parent is `c6Entry`. -/

def c6Place : Place :=
  { source_id := "node/7", source_file := "test.pbf",
    import_timestamp := 0, osm_type := OsmType.Node, osm_id := 7,
    wikidata_id := none, importance := none, layer := Layer.Venue,
    categories := [], name := [("default", "Opernhaus")],
    phrase := some ("Opernhaus"), address := none,
    center_point := { lat := 47, lon := 8 }, bbox := none,
    parent := { AdminHierarchy.empty with country := some c6Entry } }

/-! ## C10: `NormalizedPlace::from_place` (`src/models/normalized.rs`) -/

/-- `AdminHierarchyIds` from `src/models/normalized.rs`. -/

structure AdminHierarchyIds where
  country : Option String
  macro_region : Option String
  region : Option String
  macro_county : Option String
  county : Option String
  local_admin : Option String
  locality : Option String
  borough : Option String
  neighbourhood : Option String
deriving DecidableEq, Repr

/-- `NormalizedPlace` from `src/models/normalized.rs`. -/

structure NormalizedPlace where
  source_id : String
  source_file : String
  import_timestamp : Int
  osm_type : OsmType
  osm_id : Int
  wikidata_id : Option String
  importance : Option ℚ
  layer : Layer
  categories : List String
  name : List (String × String)
  phrase : Option String
  address : Option Address
  center_point : GeoPoint
  bbox : Option GeoBbox
  parent : AdminHierarchyIds

/-- The per-slot conversion
`slot.and_then(|e| e.id.map(|id| format!("relation/{}", id)))` used nine
times in `NormalizedPlace::from_place`. -/

def slotToId (slot : Option AdminEntry) : Option String :=
  slot.bind (fun e => e.id.map (fun pid => ("relation/") ++ toString pid))

/-- `NormalizedPlace::from_place` from `src/models/normalized.rs:40-99`. -/

def NormalizedPlace.from_place (place : Place) : NormalizedPlace :=
  { source_id := place.source_id,
    source_file := place.source_file,
    import_timestamp := place.import_timestamp,
    osm_type := place.osm_type,
    osm_id := place.osm_id,
    wikidata_id := place.wikidata_id,
    importance := place.importance,
    layer := place.layer,
    categories := place.categories,
    name := place.name,
    phrase := place.phrase,
    address := place.address,
    center_point := place.center_point,
    bbox := place.bbox,
    parent :=
      { country := slotToId place.parent.country,
        macro_region := slotToId place.parent.macro_region,
        region := slotToId place.parent.region,
        macro_county := slotToId place.parent.macro_county,
        county := slotToId place.parent.county,
        local_admin := slotToId place.parent.local_admin,
        locality := slotToId place.parent.locality,
        borough := slotToId place.parent.borough,
        neighbourhood := slotToId place.parent.neighbourhood } }

/-- The behaviour C10 claims for one parent slot: the output is
`"relation/<id>"` exactly when the slot holds an entry with an id, and
`none` when the slot is empty or its entry has no id. -/

def slotSpec (slot : Option AdminEntry) (out : Option String) : Prop :=
  (∀ s, out = some s ↔
    ∃ e pid, slot = some e ∧ e.id = some pid ∧
      s = ("relation/") ++ toString pid) ∧
  (out = none ↔ slot = none ∨ ∃ e, slot = some e ∧ e.id = none)

/-! ## C4: layer-rank hierarchy filtering (`src/query/search.rs`) -/

/-- `get_layer_rank` from `src/query/search.rs:628-642`. -/

def get_layer_rank (layer : Layer) : Nat :=
  match layer with
  | .Country => 100
  | .MacroRegion => 90
  | .Region => 80
  | .MacroCounty => 70
  | .County => 60
  | .LocalAdmin => 50
  | .Locality => 40
  | .Borough => 30
  | .Neighbourhood => 20
  | .Street => 10
  | .Address => 10
  | .Venue => 10
  | .Admin => 50

/-- `format!("{:?}", layer).to_lowercase()` from
`src/query/search.rs:544`. -/

def Layer.debugLower : Layer → String
  | .Venue => "venue"
  | .Address => "address"
  | .Street => "street"
  | .Admin => "admin"
  | .Neighbourhood => "neighbourhood"
  | .Locality => "locality"
  | .County => "county"
  | .Region => "region"
  | .MacroCounty => "macrocounty"
  | .MacroRegion => "macroregion"
  | .LocalAdmin => "localadmin"
  | .Borough => "borough"
  | .Country => "country"

/-- `resolve_admin_name` from `src/query/search.rs:484-500`:
language-specific name, else default name, else the entry's `name`. -/

def resolve_admin_name (id : Option String)
    (map : List (String × AdminEntry)) (lang : Option String) :
    Option String :=
  id.bind (fun id_str =>
    (lookupKV map id_str).bind (fun entry =>
      match lang.bind (fun l => lookupKV entry.names l) with
      | some n => some n
      | none =>
        match lookupKV entry.names ("default") with
        | some n => some n
        | none => entry.name))

/-- `resolve_admin_names` from `src/query/search.rs:502-508`. -/

def resolve_admin_names (id : Option String)
    (map : List (String × AdminEntry)) :
    Option (List (String × String)) :=
  id.bind (fun id_str => (lookupKV map id_str).map (fun e => e.names))

/-- The `resolve_if_larger` closure of `place_to_search_result`
(`src/query/search.rs:528-534`). -/

def resolve_if_larger (place_rank : Nat) (lv : Layer)
    (id : Option String) (map : List (String × AdminEntry))
    (lang : Option String) : Option String :=
  if get_layer_rank lv > place_rank then resolve_admin_name id map lang
  else none

/-- The `resolve_names_if_larger` closure of
`place_to_search_result_v2` (`src/query/search.rs:587-593`). -/

def resolve_names_if_larger (place_rank : Nat) (lv : Layer)
    (id : Option String) (map : List (String × AdminEntry)) :
    Option (List (String × String)) :=
  if get_layer_rank lv > place_rank then resolve_admin_names id map
  else none

/-- Display-name selection of `place_to_search_result`
(`src/query/search.rs:518-524`). -/

def displayName (name : List (String × String)) (lang : Option String) :
    String :=
  match lang.bind (fun l => lookupKV name l) with
  | some n => n
  | none =>
    match lookupKV name ("default") with
    | some n => n
    | none =>
      match name.head? with
      | some kv => kv.2
      | none => ""

structure Geometry where
  geo_type : String
  coordinates : ℚ × ℚ

/-- `Properties` from `src/query/search.rs:50-76`. -/

structure Properties where
  id : String
  layer : String
  name : String
  names : List (String × String)
  housenumber : Option String
  street : Option String
  postcode : Option String
  country : Option String
  region : Option String
  county : Option String
  locality : Option String
  neighbourhood : Option String
  categories : List String
  confidence : ℚ

structure SearchResult where
  result_type : String
  geometry : Geometry
  properties : Properties

/-- `PropertiesV2` from `src/query/search.rs:78-114`. -/

structure PropertiesV2 where
  id : String
  layer : String
  name : String
  names : List (String × String)
  housenumber : Option String
  street : Option String
  postcode : Option String
  country : Option String
  country_names : Option (List (String × String))
  region : Option String
  region_names : Option (List (String × String))
  county : Option String
  county_names : Option (List (String × String))
  locality : Option String
  locality_names : Option (List (String × String))
  neighbourhood : Option String
  neighbourhood_names : Option (List (String × String))
  categories : List String
  confidence : ℚ

structure SearchResultV2 where
  result_type : String
  geometry : Geometry
  properties : PropertiesV2

/-- The record built by `place_to_search_result`
(`src/query/search.rs:511-559`); the function itself wraps it in
`Some`. -/

def place_to_search_result_core (place : NormalizedPlace) (score : ℚ)
    (preferred_lang : Option String)
    (admin_map : List (String × AdminEntry)) : SearchResult :=
  let place_rank := get_layer_rank place.layer
  { result_type := "Feature",
    geometry := { geo_type := "Point",
                  coordinates :=
                    (place.center_point.lon, place.center_point.lat) },
    properties :=
    { id := place.source_id,
      layer := place.layer.debugLower,
      name := displayName place.name preferred_lang,
      names := place.name,
      housenumber := place.address.bind (fun a => a.housenumber),
      street := place.address.bind (fun a => a.street),
      postcode := place.address.bind (fun a => a.postcode),
      country := resolve_if_larger place_rank Layer.Country
        place.parent.country admin_map preferred_lang,
      region := resolve_if_larger place_rank Layer.Region
        place.parent.region admin_map preferred_lang,
      county := resolve_if_larger place_rank Layer.County
        place.parent.county admin_map preferred_lang,
      locality := resolve_if_larger place_rank Layer.Locality
        place.parent.locality admin_map preferred_lang,
      neighbourhood := resolve_if_larger place_rank Layer.Neighbourhood
        place.parent.neighbourhood admin_map preferred_lang,
      categories := place.categories,
      confidence := score } }

/-- `place_to_search_result` from `src/query/search.rs:511-559`. -/

def place_to_search_result (place : NormalizedPlace) (score : ℚ)
    (preferred_lang : Option String)
    (admin_map : List (String × AdminEntry)) : Option SearchResult :=
  some (place_to_search_result_core place score preferred_lang admin_map)

/-- The record built by `place_to_search_result_v2`
(`src/query/search.rs:562-626`). -/

def place_to_search_result_v2_core (place : NormalizedPlace) (score : ℚ)
    (preferred_lang : Option String)
    (admin_map : List (String × AdminEntry)) : SearchResultV2 :=
  let place_rank := get_layer_rank place.layer
  { result_type := "Feature",
    geometry := { geo_type := "Point",
                  coordinates :=
                    (place.center_point.lon, place.center_point.lat) },
    properties :=
    { id := place.source_id,
      layer := place.layer.debugLower,
      name := displayName place.name preferred_lang,
      names := place.name,
      housenumber := place.address.bind (fun a => a.housenumber),
      street := place.address.bind (fun a => a.street),
      postcode := place.address.bind (fun a => a.postcode),
      country := resolve_if_larger place_rank Layer.Country
        place.parent.country admin_map preferred_lang,
      country_names := resolve_names_if_larger place_rank Layer.Country
        place.parent.country admin_map,
      region := resolve_if_larger place_rank Layer.Region
        place.parent.region admin_map preferred_lang,
      region_names := resolve_names_if_larger place_rank Layer.Region
        place.parent.region admin_map,
      county := resolve_if_larger place_rank Layer.County
        place.parent.county admin_map preferred_lang,
      county_names := resolve_names_if_larger place_rank Layer.County
        place.parent.county admin_map,
      locality := resolve_if_larger place_rank Layer.Locality
        place.parent.locality admin_map preferred_lang,
      locality_names := resolve_names_if_larger place_rank Layer.Locality
        place.parent.locality admin_map,
      neighbourhood := resolve_if_larger place_rank Layer.Neighbourhood
        place.parent.neighbourhood admin_map preferred_lang,
      neighbourhood_names := resolve_names_if_larger place_rank
        Layer.Neighbourhood place.parent.neighbourhood admin_map,
      categories := place.categories,
      confidence := score } }

/-- `place_to_search_result_v2` from `src/query/search.rs:562-626`. -/

def place_to_search_result_v2 (place : NormalizedPlace) (score : ℚ)
    (preferred_lang : Option String)
    (admin_map : List (String × AdminEntry)) : Option SearchResultV2 :=
  some (place_to_search_result_v2_core place score preferred_lang
    admin_map)

/-- A concrete region-layer place with a country parent, and the admin
map resolving it (the hierarchy-filtering test scenario of
`src/query/search.rs`). -/

def c4Place : NormalizedPlace :=
  { source_id := "relation/111", source_file := "test.pbf",
    import_timestamp := 0, osm_type := OsmType.Relation, osm_id := 111,
    wikidata_id := none, importance := some 1, layer := Layer.Region,
    categories := [], name := [("default", "Catalonia")],
    phrase := none, address := none,
    center_point := { lat := 41, lon := 2 }, bbox := none,
    parent :=
      { country := some ("relation/1"), macro_region := none,
        region := none, macro_county := none,
        county := some ("relation/3"), local_admin := none,
        locality := none, borough := none, neighbourhood := none } }

def c4Map : List (String × AdminEntry) :=
  [("relation/1",
    { name := some ("Spain"), abbr := none, id := some 1, bbox := none,
      names := [("default", "Spain")] }),
   ("relation/3",
    { name := some ("Barcelona"), abbr := none, id := some 3,
      bbox := none, names := [("default", "Barcelona")] })]

/-! ## C7: synonym normalizer (`src/ingest/synonyms.rs`)

Strings are modelled as `List Char` so that splitting and trimming are
structurally recursive.  `char::is_whitespace`, `is_alphanumeric` and
`to_lowercase` are modelled by `Char.isWhitespace`, `Char.isAlphanum`
and `Char.toLower`. -/

/-- `str::split_whitespace`, as a left-to-right scanner with an
accumulator holding the (reversed) current token. -/

def splitWSGo (acc : List Char) : List Char → List (List Char)
  | [] => if acc = [] then [] else [acc.reverse]
  | c :: cs =>
    if c.isWhitespace then
      if acc = [] then splitWSGo [] cs
      else acc.reverse :: splitWSGo [] cs
    else splitWSGo (c :: acc) cs

def splitWS (l : List Char) : List (List Char) := splitWSGo [] l

/-- `Vec::join(" ")`. -/

def joinSp : List (List Char) → List Char
  | [] => []
  | [t] => t
  | t :: ts => t ++ ' ' :: joinSp ts

/-- `token.trim_matches(|c| !c.is_alphanumeric())`. -/

def trimNonAlnum (t : List Char) : List Char :=
  ((t.dropWhile (fun c => !c.isAlphanum)).reverse.dropWhile
    (fun c => !c.isAlphanum)).reverse

/-- The token cleaning of `SynonymService::normalize`
(`src/ingest/synonyms.rs:126-129`): strip leading/trailing
non-alphanumeric characters, lowercase. -/

def cleanToken (t : List Char) : List Char :=
  (trimNonAlnum t).map Char.toLower

/-- `HashMap::get` on the replacement table. -/

def lookupRep (repl : List (List Char × List Char)) (k : List Char) :
    Option (List Char) :=
  match repl.find? (fun kv => kv.1 = k) with
  | some kv => some kv.2
  | none => none

/-- `HashMap::insert` on the replacement table. -/

def insertRep (repl : List (List Char × List Char))
    (k v : List Char) : List (List Char × List Char) :=
  if repl.any (fun kv => kv.1 = k) then
    repl.map (fun kv => if kv.1 = k then (k, v) else kv)
  else repl ++ [(k, v)]

/-- The per-token body of `SynonymService::normalize`: replace the
token when its cleaned form is mapped, else keep the original token. -/

def applyRep (repl : List (List Char × List Char))
    (token : List Char) : List Char :=
  match lookupRep repl (cleanToken token) with
  | some r => r
  | none => token

/-- `SynonymService::normalize` from `src/ingest/synonyms.rs:122-138`:
split on whitespace, replace each token whose cleaned form is mapped
(non-mapped tokens keep their original form), rejoin with single
spaces. -/

def normalize (repl : List (List Char × List Char)) (text : List Char) :
    List Char :=
  joinSp ((splitWS text).map (applyRep repl))

/-- `comment_regex.replace(line, "")` with pattern `#.*`: truncate at
the first `#`. -/

def takeUntilHash : List Char → List Char
  | [] => []
  | '#' :: _ => []
  | c :: cs => c :: takeUntilHash cs

/-- `str::trim`. -/

def trimChars (l : List Char) : List Char :=
  ((l.dropWhile (fun c => c.isWhitespace)).reverse.dropWhile
    (fun c => c.isWhitespace)).reverse

/-- `whitespace_regex.replace_all(&line, " ")` with pattern `\s+`:
collapse every whitespace run to a single space.  The flag records
whether the previous character was whitespace. -/

def collapseWSGo : Bool → List Char → List Char
  | _, [] => []
  | prevWS, c :: cs =>
    if c.isWhitespace then
      if prevWS then collapseWSGo true cs
      else ' ' :: collapseWSGo true cs
    else c :: collapseWSGo false cs

def collapseWS (l : List Char) : List Char := collapseWSGo false l

/-- `line.contains("=>")`. -/

def containsArrow : List Char → Bool
  | [] => false
  | '=' :: '>' :: _ => true
  | _ :: cs => containsArrow cs

/-- `arrow_regex.split(&line)` with pattern `=>`. -/

def splitArrowGo (acc : List Char) : List Char → List (List Char)
  | [] => [acc.reverse]
  | '=' :: '>' :: rest => acc.reverse :: splitArrowGo [] rest
  | c :: cs => splitArrowGo (c :: acc) cs

def splitArrow (l : List Char) : List (List Char) := splitArrowGo [] l

/-- `comma_regex.split(...)` with pattern `,`. -/

def splitCommaGo (acc : List Char) : List Char → List (List Char)
  | [] => [acc.reverse]
  | ',' :: cs => acc.reverse :: splitCommaGo [] cs
  | c :: cs => splitCommaGo (c :: acc) cs

def splitComma (l : List Char) : List (List Char) := splitCommaGo [] l

/-- One line of `SynonymService::load_file`
(`src/ingest/synonyms.rs:73-117`): strip comment, trim, lowercase, skip
empty, collapse whitespace, then either the `lefts => rights` form
(every non-empty trimmed left maps to the trimmed first right) or the
`a, b, c` list form (every non-empty trimmed variant maps to the
trimmed first item). -/

def processLine (repl : List (List Char × List Char))
    (line : List Char) : List (List Char × List Char) :=
  let l1 := takeUntilHash line
  let l2 := (trimChars l1).map Char.toLower
  if l2 = [] then repl
  else
    let l3 := collapseWS l2
    if containsArrow l3 then
      match splitArrow l3 with
      | [left, right] =>
        let lefts := splitComma left
        let rights := splitComma right
        match rights.head? with
        | some t0 =>
          let target := trimChars t0
          lefts.foldl (fun r src =>
            let s := trimChars src
            if s ≠ [] ∧ s ≠ target then insertRep r s target else r)
            repl
        | none => repl
      | _ => repl
    else
      match splitComma l3 with
      | [] => repl
      | canon0 :: variants =>
        let canon := trimChars canon0
        variants.foldl (fun r v =>
          let s := trimChars v
          if s ≠ [] ∧ s ≠ canon then insertRep r s canon else r) repl

/-- `SynonymService::load_file` over the lines of one file
(`src/ingest/synonyms.rs:62-119`). -/

def load_file (lines : List (List Char)) :
    List (List Char × List Char) :=
  lines.foldl processLine []

/-- The chained table loaded from the two lines `a => b` and `b => c`. -/

def c7Table : List (List Char × List Char) :=
  load_file [("a => b").toList, ("b => c").toList]

/-- A canonical, closed replacement table (street-suffix style). -/

def c7GoodTable : List (List Char × List Char) :=
  [(("st").toList, ("street").toList)]

/-! ## C8: local focus rescoring (`src/query/search.rs:297-328,706-720`)

The `f64` transcendental functions have no exact rational counterpart,
so they are carried as an explicit record of function parameters; the
rescoring theorem holds for every instantiation, which captures exactly
which formula the code applies and how it re-sorts. -/

/-- The floating-point operations used by `haversine_distance_km` and
the decay formula (`f64::to_radians`, `sin`, `cos`, `sqrt`, `atan2`,
`exp`), abstracted. -/

structure FloatOps where
  toRadians : ℚ → ℚ
  sin : ℚ → ℚ
  cos : ℚ → ℚ
  sqrt : ℚ → ℚ
  atan2 : ℚ → ℚ → ℚ
  exp : ℚ → ℚ

/-- `haversine_distance_km` from `src/query/search.rs:706-720`; points
are `(lat, lon)` pairs as at the call site. -/

def haversine_distance_km (ops : FloatOps) (p1 p2 : ℚ × ℚ) : ℚ :=
  let lat1 := p1.1
  let lon1 := p1.2
  let lat2 := p2.1
  let lon2 := p2.2
  let r : ℚ := 6371
  let dlat := ops.toRadians (lat2 - lat1)
  let dlon := ops.toRadians (lon2 - lon1)
  let a := (ops.sin (dlat / 2)) ^ 2 +
    ops.cos (ops.toRadians lat1) * ops.cos (ops.toRadians lat2) *
      (ops.sin (dlon / 2)) ^ 2
  let c := 2 * ops.atan2 (ops.sqrt a) (ops.sqrt (1 - a))
  r * c

/-- The per-place factor of the focus-rescoring loop
(`src/query/search.rs:301-322`): `decay = exp(-d²/(2·50²))` for the
haversine distance `d` from the focus to the place's center, and
`final_factor = decay + (1 − decay) · importance` with missing
importance read as 0. -/

def focusFinalFactor (ops : FloatOps) (focus : ℚ × ℚ)
    (place : NormalizedPlace) : ℚ :=
  let place_point := (place.center_point.lat, place.center_point.lon)
  let distance_km := haversine_distance_km ops focus place_point
  let scale : ℚ := 50
  let decay := ops.exp (-(distance_km * distance_km) /
    (2 * scale * scale))
  let importance := place.importance.getD 0
  decay + (1 - decay) * importance

/-- Comparator of the re-sort
`sort_by(|a, b| b.1.partial_cmp(&a.1) ...)`
(`src/query/search.rs:326-327`): stable descending by score; on `ℚ` the
`unwrap_or(Equal)` NaN fallback never fires. -/

def scoreDescLe (a b : NormalizedPlace × ℚ) : Bool := b.2 ≤ a.2

/-- The focus-rescoring block of `execute_search_internal`
(`src/query/search.rs:297-328`): multiply every hydrated place's text
score by its final factor, then re-sort descending (stable). -/

def apply_focus_rescore (ops : FloatOps) (focus : ℚ × ℚ)
    (places : List (NormalizedPlace × ℚ)) :
    List (NormalizedPlace × ℚ) :=
  insertionSort scoreDescLe
    (places.map (fun ps => (ps.1, ps.2 * focusFinalFactor ops focus ps.1)))

/-! ## Theorems -/
theorem orderedInsert_perm (le : α → α → Bool) (a : α) (l : List α) :
    (orderedInsert le a l).Perm (a :: l) := by
  induction l with
  | nil => simp [orderedInsert]
  | cons b t ih =>
    by_cases h : le a b
    · simp [orderedInsert, h]
    · simp only [orderedInsert, h, if_neg, Bool.not_eq_true]
      exact ((ih.cons b).trans (List.Perm.swap a b t)).trans (List.Perm.refl _)

theorem insertionSort_perm (le : α → α → Bool) (l : List α) :
    (insertionSort le l).Perm l := by
  induction l with
  | nil => simp [insertionSort]
  | cons a t ih =>
    exact (orderedInsert_perm le a (insertionSort le t)).trans (ih.cons a)

theorem mem_insertionSort (le : α → α → Bool) {l : List α} {x : α} :
    x ∈ insertionSort le l ↔ x ∈ l :=
  (insertionSort_perm le l).mem_iff

theorem mem_orderedInsert (le : α → α → Bool) {a x : α} {l : List α} :
    x ∈ orderedInsert le a l ↔ x = a ∨ x ∈ l := by
  rw [(orderedInsert_perm le a l).mem_iff, List.mem_cons]

theorem pairwise_orderedInsert (le : α → α → Bool)
    (htot : ∀ a b, le a b || le b a)
    (htrans : ∀ a b c, le a b → le b c → le a c)
    (a : α) {l : List α} (hl : l.Pairwise (fun x y => le x y = true)) :
    (orderedInsert le a l).Pairwise (fun x y => le x y = true) := by
  induction l with
  | nil => simp [orderedInsert]
  | cons b t ih =>
    rcases List.pairwise_cons.mp hl with ⟨hb, ht⟩
    by_cases h : le a b
    · rw [orderedInsert, if_pos h]
      refine List.pairwise_cons.mpr ⟨?_, hl⟩
      intro y hy
      rcases List.mem_cons.mp hy with rfl | hyt
      · exact h
      · exact htrans a b y h (hb y hyt)
    · have hba : le b a := by
        rcases Bool.or_eq_true_iff.mp (htot a b) with hab | hba
        · exact absurd hab h
        · exact hba
      simp only [orderedInsert, h, if_neg, Bool.not_eq_true]
      refine List.pairwise_cons.mpr ⟨?_, ih ht⟩
      intro y hy
      rcases (mem_orderedInsert le).mp hy with rfl | hyt
      · exact hba
      · exact hb y hyt

theorem pairwise_insertionSort (le : α → α → Bool)
    (htot : ∀ a b, le a b || le b a)
    (htrans : ∀ a b c, le a b → le b c → le a c)
    (l : List α) :
    (insertionSort le l).Pairwise (fun x y => le x y = true) := by
  induction l with
  | nil => simp [insertionSort]
  | cons a t ih => exact pairwise_orderedInsert le htot htrans a ih

/-- The head of a stable sort is a minimum of the input list. -/
theorem insertionSort_head_min (le : α → α → Bool)
    (htot : ∀ a b, le a b || le b a)
    (htrans : ∀ a b c, le a b → le b c → le a c)
    {l : List α} {b : α} {t : List α}
    (h : insertionSort le l = b :: t) :
    b ∈ l ∧ ∀ a ∈ l, le b a := by
  have hperm := insertionSort_perm le l
  have hmem : b ∈ l := by
    have : b ∈ insertionSort le l := by rw [h]; exact List.mem_cons_self b t
    exact hperm.mem_iff.mp this
  refine ⟨hmem, ?_⟩
  intro a ha
  have ha' : a ∈ insertionSort le l := hperm.mem_iff.mpr ha
  rw [h] at ha'
  rcases List.mem_cons.mp ha' with rfl | hat
  · have := htot a a
    simpa using this
  · have hpw := pairwise_insertionSort le htot htrans l
    rw [h] at hpw
    exact (List.pairwise_cons.mp hpw).1 a hat

/-- `find?` on a pairwise-ordered list: everything satisfying the
predicate is related to the first element found. -/
theorem find_pairwise {R : α → α → Prop} {p : α → Bool} :
    ∀ {l : List α}, l.Pairwise R → ∀ {b}, l.find? p = some b →
      ∀ {b'}, b' ∈ l → p b' → b' = b ∨ R b b' := by
  intro l
  induction l with
  | nil => intro _ b h; simp at h
  | cons x t ih =>
    intro hpw b hf b' hb' hp
    rcases List.pairwise_cons.mp hpw with ⟨hx, ht⟩
    by_cases hpx : p x
    · rw [List.find?_cons_of_pos _ hpx] at hf
      injection hf with hf
      subst hf
      rcases List.mem_cons.mp hb' with rfl | hbt
      · exact Or.inl rfl
      · exact Or.inr (hx b' hbt)
    · rw [List.find?_cons_of_neg _ hpx] at hf
      rcases List.mem_cons.mp hb' with rfl | hbt
      · exact absurd hp hpx
      · exact ih ht hf hbt hp

/-- `mergeChain` never returns a longer remainder than it was given. -/
theorem mergeChain_rem_le :
    ∀ (fuel : Nat) (c : List Coord) (r : List (List Coord)),
      (mergeChain fuel c r).2.length ≤ r.length := by
  intro fuel
  induction fuel with
  | zero => intro c r; simp [mergeChain]
  | succ n ih =>
    intro c r
    rw [mergeChain]
    cases htry : tryMergeOne c r with
    | none => simp
    | some p =>
      have hlen : p.2.length + 1 ≤ r.length := by
        clear ih
        induction r generalizing c p with
        | nil => simp [tryMergeOne] at htry
        | cons ring rest ihr =>
          rw [tryMergeOne] at htry
          by_cases h1 : c.getLast? = ring.head?
          · simp only [h1, if_pos] at htry
            cases htry; simp
          · rw [if_neg h1] at htry
            by_cases h2 : c.getLast? = ring.getLast?
            · simp only [h2, if_pos] at htry
              cases htry; simp
            · rw [if_neg h2] at htry
              by_cases h3 : c.head? = ring.getLast?
              · simp only [h3, if_pos] at htry
                cases htry; simp
              · rw [if_neg h3] at htry
                by_cases h4 : c.head? = ring.head?
                · simp only [h4, if_pos] at htry
                  cases htry; simp
                · rw [if_neg h4] at htry
                  cases hrec : tryMergeOne c rest with
                  | none => rw [hrec] at htry; cases htry
                  | some q =>
                    rw [hrec] at htry
                    cases htry
                    have := ihr (c := c) (p := q) hrec
                    simpa [Nat.succ_le_succ_iff] using
                      Nat.succ_le_succ this
      exact le_trans (ih p.1 p.2) (Nat.le_of_succ_le hlen)

theorem lookupStep_get_ne (boundaries : List AdminBoundary)
    (forced : Option String) (h : AdminHierarchy) (level L : AdminLevel)
    (hne : level ≠ L) :
    (lookupStep boundaries forced h level).get L = h.get L := by
  rw [lookupStep]
  cases insertionSort areaLe (levelCandidates boundaries forced level) with
  | nil => rfl
  | cons b t =>
    cases level <;> cases L <;>
      first
        | exact absurd rfl hne
        | rfl

theorem lookupStep_get_eq (boundaries : List AdminBoundary)
    (forced : Option String) (h : AdminHierarchy) (L : AdminLevel) :
    (lookupStep boundaries forced h L).get L =
      match insertionSort areaLe (levelCandidates boundaries forced L) with
      | [] => h.get L
      | b :: _ => some (AdminEntry.from_area b.area) := by
  rw [lookupStep]
  cases insertionSort areaLe (levelCandidates boundaries forced L) with
  | nil => rfl
  | cons b t => cases L <;> rfl

theorem foldl_lookupStep_get_not_mem (boundaries : List AdminBoundary)
    (forced : Option String) :
    ∀ (levels : List AdminLevel) (h : AdminHierarchy) (L : AdminLevel),
      L ∉ levels →
      (levels.foldl (lookupStep boundaries forced) h).get L = h.get L := by
  intro levels
  induction levels with
  | nil => intro h L _; rfl
  | cons lv rest ih =>
    intro h L hnot
    rw [List.foldl_cons]
    have hne : lv ≠ L := fun hc => hnot (hc ▸ List.mem_cons_self lv rest)
    rw [ih _ L (fun hc => hnot (List.mem_cons_of_mem lv hc))]
    exact lookupStep_get_ne boundaries forced h lv L hne

theorem foldl_lookupStep_get (boundaries : List AdminBoundary)
    (forced : Option String) :
    ∀ (levels : List AdminLevel) (h : AdminHierarchy) (L : AdminLevel),
      L ∈ levels → levels.Nodup →
      (levels.foldl (lookupStep boundaries forced) h).get L =
        match insertionSort areaLe
            (levelCandidates boundaries forced L) with
        | [] => h.get L
        | b :: _ => some (AdminEntry.from_area b.area) := by
  intro levels
  induction levels with
  | nil => intro h L hmem; exact absurd hmem (List.not_mem_nil L)
  | cons lv rest ih =>
    intro h L hmem hnodup
    rw [List.foldl_cons]
    rcases List.mem_cons.mp hmem with rfl | hLrest
    · have hnot : L ∉ rest := (List.nodup_cons.mp hnodup).1
      rw [foldl_lookupStep_get_not_mem boundaries forced rest _ L hnot]
      rw [lookupStep_get_eq]
    · have hne : lv ≠ L := by
        intro hc
        subst hc
        exact (List.nodup_cons.mp hnodup).1 hLrest
      rw [ih _ L hLrest (List.nodup_cons.mp hnodup).2]
      rw [lookupStep_get_ne boundaries forced h lv L hne]

/-- The hierarchy produced by `PipService::lookup` reads back, at each
level, the head of the area-sorted candidate list at that level. -/
theorem lookup_get (svc : PipService) (lon lat : ℚ)
    (limit_level : Option AdminLevel) (L : AdminLevel) :
    (svc.lookup lon lat limit_level).get L =
      match insertionSort areaLe
          (levelCandidates (effectiveBoundaries svc lon lat limit_level)
            (forced_country_code
              (effectiveBoundaries svc lon lat limit_level)) L) with
      | [] => none
      | b :: _ => some (AdminEntry.from_area b.area) := by
  rw [PipService.lookup]
  have hmem : L ∈ AdminLevel.all := by cases L <;> decide
  have hnodup : AdminLevel.all.Nodup := by decide
  rw [foldl_lookupStep_get _ _ AdminLevel.all AdminHierarchy.empty L hmem
    hnodup]
  have hempty : AdminHierarchy.empty.get L = none := by cases L <;> rfl
  rw [hempty]

theorem levelDescLe_total (a b : AdminBoundary) :
    levelDescLe a b || levelDescLe b a := by
  rcases Nat.le_total b.area.level.toIdx a.area.level.toIdx with h | h <;>
    simp [levelDescLe, h]

theorem levelDescLe_trans (a b c : AdminBoundary)
    (hab : levelDescLe a b) (hbc : levelDescLe b c) : levelDescLe a c := by
  simp only [levelDescLe, decide_eq_true_eq] at *
  exact le_trans hbc hab

theorem areaLe_total (a b : AdminBoundary) : areaLe a b || areaLe b a := by
  rcases le_total (unsigned_area a.geometry) (unsigned_area b.geometry)
    with h | h <;> simp [areaLe, h]

theorem areaLe_trans (a b c : AdminBoundary)
    (hab : areaLe a b) (hbc : areaLe b c) : areaLe a c := by
  simp only [areaLe, decide_eq_true_eq] at *
  exact le_trans hab hbc

/-- Every member of the per-level candidate list is a containing
boundary at that level, and at `Country` with a forced code it matches
the code by `iso_country_code` or `abbr`. -/
theorem mem_levelCandidates {boundaries : List AdminBoundary}
    {forced : Option String} {L : AdminLevel} {b : AdminBoundary}
    (hb : b ∈ levelCandidates boundaries forced L) :
    b ∈ boundaries ∧ b.area.level = L ∧
      (L = AdminLevel.Country → ∀ code, forced = some code →
        b.area.iso_country_code = some code ∨ b.area.abbr = some code) := by
  rw [levelCandidates.eq_def] at hb
  by_cases hL : L = AdminLevel.Country
  · subst hL
    simp only [if_pos rfl] at hb
    cases hforced : forced with
    | none =>
      rw [hforced] at hb
      rcases List.mem_filter.mp hb with ⟨hmem, hlvl⟩
      refine ⟨hmem, by simpa using hlvl, ?_⟩
      intro _ code hcode
      cases hcode
    | some code =>
      rw [hforced] at hb
      rcases List.mem_filter.mp hb with ⟨hb', hmatch⟩
      rcases List.mem_filter.mp hb' with ⟨hmem, hlvl⟩
      refine ⟨hmem, by simpa using hlvl, ?_⟩
      intro _ code' hcode'
      injection hcode' with hcode'
      subst hcode'
      rcases Bool.or_eq_true_iff.mp hmatch with h | h
      · exact Or.inl (by simpa using h)
      · exact Or.inr (by simpa using h)
  · simp only [if_neg hL] at hb
    rcases List.mem_filter.mp hb with ⟨hmem, hlvl⟩
    exact ⟨hmem, by simpa using hlvl, fun hc => absurd hc hL⟩

/-- C1.  For every point and indexed boundary set, `PipService::lookup`
computes the forced country code as the `iso_country_code` of a most
specific (maximal-level) containing boundary that has one, and when such
a code exists the `Country` slot of the returned hierarchy comes only
from `Country`-level containing boundaries whose `iso_country_code` or
`abbr` equals the forced code (`src/pip/service.rs:40-81`). -/
theorem c1_country_enforcement (svc : PipService) (lon lat : ℚ)
    (limit_level : Option AdminLevel) (code : String)
    (hforced : forced_country_code
      (effectiveBoundaries svc lon lat limit_level) = some code) :
    (∃ b, b ∈ effectiveBoundaries svc lon lat limit_level ∧
      b.area.iso_country_code = some code ∧
      ∀ b' ∈ effectiveBoundaries svc lon lat limit_level,
        b'.area.iso_country_code.isSome →
          b'.area.level.toIdx ≤ b.area.level.toIdx) ∧
    ∀ e, (svc.lookup lon lat limit_level).country = some e →
      ∃ b, b ∈ effectiveBoundaries svc lon lat limit_level ∧
        b.area.level = AdminLevel.Country ∧
        (b.area.iso_country_code = some code ∨
          b.area.abbr = some code) ∧
        e = AdminEntry.from_area b.area := by
  set bs := effectiveBoundaries svc lon lat limit_level with hbs
  constructor
  · rw [forced_country_code] at hforced
    cases hfind : (insertionSort levelDescLe bs).find?
        (fun b => b.area.iso_country_code.isSome) with
    | none => rw [hfind] at hforced; cases hforced
    | some b0 =>
      rw [hfind] at hforced
      have hb0mem : b0 ∈ bs :=
        (mem_insertionSort levelDescLe).mp (List.mem_of_find?_eq_some hfind)
      refine ⟨b0, hb0mem, hforced, ?_⟩
      intro b' hb' hiso
      have hb's : b' ∈ insertionSort levelDescLe bs :=
        (mem_insertionSort levelDescLe).mpr hb'
      have hpw := pairwise_insertionSort levelDescLe levelDescLe_total
        levelDescLe_trans bs
      have := find_pairwise hpw hfind hb's (by simpa using hiso)
      rcases this with rfl | hrel
      · exact le_refl _
      · simpa [levelDescLe] using hrel
  · intro e he
    have hget : (svc.lookup lon lat limit_level).get AdminLevel.Country =
        some e := he
    rw [lookup_get] at hget
    rw [← hbs] at hget
    cases hsort : insertionSort areaLe
        (levelCandidates bs (forced_country_code bs) AdminLevel.Country)
      with
    | nil => rw [hsort] at hget; cases hget
    | cons b t =>
      rw [hsort] at hget
      injection hget with hget
      have hbmem : b ∈ levelCandidates bs (forced_country_code bs)
          AdminLevel.Country := by
        have : b ∈ insertionSort areaLe
            (levelCandidates bs (forced_country_code bs)
              AdminLevel.Country) := by
          rw [hsort]; exact List.mem_cons_self b t
        exact (mem_insertionSort areaLe).mp this
      rcases mem_levelCandidates hbmem with ⟨hmem, hlvl, hmatch⟩
      exact ⟨b, hmem, hlvl, hmatch rfl code hforced, hget.symm⟩

/-- C2.  For every point and level, if containing boundaries exist at
level `L` (after the country-code filtering at `Country`), the slot for
`L` in the hierarchy returned by `PipService::lookup` is the entry of a
candidate with minimal unsigned polygon area — so a point inside an
enclave gets the enclave, not the surrounding same-level polygon
(`src/pip/service.rs:59-99`, `src/pip/index.rs:82-92`). -/
theorem c2_smallest_area (svc : PipService) (lon lat : ℚ)
    (limit_level : Option AdminLevel) (L : AdminLevel)
    (hne : levelCandidates (effectiveBoundaries svc lon lat limit_level)
      (forced_country_code (effectiveBoundaries svc lon lat limit_level))
      L ≠ []) :
    ∃ b, b ∈ levelCandidates
        (effectiveBoundaries svc lon lat limit_level)
        (forced_country_code (effectiveBoundaries svc lon lat limit_level))
        L ∧
      (∀ b' ∈ levelCandidates
          (effectiveBoundaries svc lon lat limit_level)
          (forced_country_code
            (effectiveBoundaries svc lon lat limit_level)) L,
        unsigned_area b.geometry ≤ unsigned_area b'.geometry) ∧
      (svc.lookup lon lat limit_level).get L =
        some (AdminEntry.from_area b.area) := by
  set bs := effectiveBoundaries svc lon lat limit_level with hbs
  set cands := levelCandidates bs (forced_country_code bs) L with hcands
  cases hsort : insertionSort areaLe cands with
  | nil =>
    have : cands = [] := by
      have hperm := insertionSort_perm areaLe cands
      rw [hsort] at hperm
      exact hperm.symm.eq_nil
    exact absurd this hne
  | cons b t =>
    have hmin := insertionSort_head_min areaLe areaLe_total areaLe_trans
      hsort
    refine ⟨b, hmin.1, ?_, ?_⟩
    · intro b' hb'
      have := hmin.2 b' hb'
      simpa [areaLe] using this
    · rw [lookup_get, ← hbs, ← hcands, hsort]

/-- Witness for C1: at a point inside Ontario (ISO `CA`), overlapped by
both the US and CA country rectangles, the forced code is `CA` and the
country slot is the CA boundary's entry. -/
theorem c1_witness :
    forced_country_code (effectiveBoundaries wSvc1 5 5 none) =
      some ("CA") ∧
    (wSvc1.lookup 5 5 none).country =
      some (AdminEntry.from_area wCaArea) ∧
    ∃ b, b ∈ effectiveBoundaries wSvc1 5 5 none ∧
      b.area.level = AdminLevel.Country ∧
      (b.area.iso_country_code = some ("CA") ∨
        b.area.abbr = some ("CA")) ∧
      AdminEntry.from_area wCaArea = AdminEntry.from_area b.area := by
  refine ⟨by decide, by decide, ?_⟩
  exact (c1_country_enforcement wSvc1 5 5 none ("CA") (by decide)).2
    (AdminEntry.from_area wCaArea) (by decide)

/-- Witness for C2: two same-level (Country) rectangles, a large one and
an enclave; the candidate list is non-empty and the slot holds a
minimal-area candidate's entry. -/
theorem c2_witness :
    levelCandidates (effectiveBoundaries wSvc2 0 0 none)
      (forced_country_code (effectiveBoundaries wSvc2 0 0 none))
      AdminLevel.Country ≠ [] ∧
    ∃ b, b ∈ levelCandidates (effectiveBoundaries wSvc2 0 0 none)
        (forced_country_code (effectiveBoundaries wSvc2 0 0 none))
        AdminLevel.Country ∧
      (∀ b' ∈ levelCandidates (effectiveBoundaries wSvc2 0 0 none)
          (forced_country_code (effectiveBoundaries wSvc2 0 0 none))
          AdminLevel.Country,
        unsigned_area b.geometry ≤ unsigned_area b'.geometry) ∧
      (wSvc2.lookup 0 0 none).get AdminLevel.Country =
        some (AdminEntry.from_area b.area) := by
  refine ⟨by decide, ?_⟩
  exact c2_smallest_area wSvc2 0 0 none AdminLevel.Country (by decide)

/-- Everything `closeEmit` emits is a closed ring of ≥ 4 points. -/
theorem closeEmit_closed (c p : List Coord) (hp : p ∈ closeEmit c) :
    p.head? = p.getLast? ∧ 4 ≤ p.length := by
  rw [closeEmit] at hp
  by_cases hlen : 3 ≤ c.length
  · rw [if_pos hlen] at hp
    by_cases hcl : c.head? = c.getLast?
    · simp only [hcl, if_pos] at hp
      by_cases h4 : 4 ≤ c.length
      · rw [if_pos h4] at hp
        rcases List.mem_singleton.mp hp with rfl
        exact ⟨hcl, h4⟩
      · rw [if_neg h4] at hp
        simp at hp
    · simp only [hcl, if_neg, if_false] at hp
      cases hcc : c with
      | nil => rw [hcc] at hlen; simp at hlen
      | cons x cs =>
        rw [hcc] at hp
        have hlen4 : 4 ≤ ((x :: cs) ++ (x :: cs).head?.toList).length := by
          rw [hcc] at hlen
          simp only [List.head?_cons, Option.toList_some,
            List.length_append, List.length_cons] at *
          omega
        rw [if_pos hlen4] at hp
        rcases List.mem_singleton.mp hp with rfl
        refine ⟨?_, hlen4⟩
        have hlast : ((x :: cs) ++ [x]).getLast? = some x :=
          List.getLast?_concat _
        simpa using hlast.symm
  · rw [if_neg hlen] at hp
    simp at hp

/-- Every polygon emitted by the stitching loop is a closed ring of at
least four points. -/
theorem mergeLoop_closed :
    ∀ (fuel : Nat) (remaining : List (List Coord)) (p : List Coord),
      p ∈ mergeLoop fuel remaining →
      p.head? = p.getLast? ∧ 4 ≤ p.length := by
  intro fuel
  induction fuel with
  | zero => intro remaining p hp; simp [mergeLoop] at hp
  | succ n ih =>
    intro remaining p hp
    cases remaining with
    | nil => simp [mergeLoop] at hp
    | cons current rest =>
      rw [mergeLoop] at hp
      by_cases hguard : current.head? = current.getLast? ∧
          4 ≤ current.length
      · rw [if_pos hguard] at hp
        rcases List.mem_cons.mp hp with rfl | hp'
        · exact hguard
        · exact ih rest p hp'
      · rw [if_neg hguard] at hp
        rcases List.mem_append.mp hp with hleft | hright
        · exact closeEmit_closed _ p hleft
        · exact ih _ p hright

/-- C3 counterexample.  The single fragment
`[(0,0), (1,0), (1,1)]` never closes (nothing can be stitched to it and
its first and last points differ), yet `merge_rings_to_polygons` does
not drop it: it emits the force-closed ring `[(0,0), (1,0), (1,1),
(0,0)]`, refuting the claim that a chain that never closes contributes
no polygon. -/
theorem c3_counterexample :
    merge_rings_to_polygons [[((0 : ℚ), (0 : ℚ)), (1, 0), (1, 1)]] =
      [[((0 : ℚ), (0 : ℚ)), (1, 0), (1, 1), (0, 0)]] ∧
    merge_rings_to_polygons [[((0 : ℚ), (0 : ℚ)), (1, 0), (1, 1)]] ≠
      [] := by
  refine ⟨by decide, by decide⟩

/-- The close step force-closes and emits every chain of at least 3
points whose first and last points differ. -/
theorem closeEmit_open (c : List Coord) (h3 : 3 ≤ c.length)
    (h2 : c.head? ≠ c.getLast?) :
    closeEmit c = [c ++ c.head?.toList] := by
  have hc4 : 4 ≤ (c ++ c.head?.toList).length := by
    cases c with
    | nil => simp at h3
    | cons x cs =>
      simp only [List.head?_cons, Option.toList_some,
        List.length_append, List.length_cons] at *
      omega
  simp only [closeEmit, if_pos h3, if_neg h2, if_pos hc4]

/-- The close step emits an already-closed chain of at least 4 points
unchanged. -/
theorem closeEmit_already_closed (c : List Coord)
    (hcl : c.head? = c.getLast?) (h4 : 4 ≤ c.length) :
    closeEmit c = [c] := by
  have h3 : 3 ≤ c.length := by omega
  simp only [closeEmit, if_pos h3, if_pos hcl, if_pos h4]

/-- The close step drops every other chain: those with fewer than 3
points, and 3-point chains whose first and last points coincide. -/
theorem closeEmit_dropped (c : List Coord)
    (h : c.length < 3 ∨ (c.length = 3 ∧ c.head? = c.getLast?)) :
    closeEmit c = [] := by
  rcases h with hlt | ⟨hlen, hcl⟩
  · rw [closeEmit, if_neg (by omega)]
  · have h3 : 3 ≤ c.length := by omega
    have hn4 : ¬ 4 ≤ c.length := by omega
    simp only [closeEmit, if_pos h3, if_pos hcl, if_neg hn4]

/-- C3 amended.  The stitcher emits an outer ring for every fragment
chain that closes (first = last, length ≥ 4); every other maximal chain
goes through the close step (`src/pip/geometry.rs:323-332`,
`src/pip/boundary.rs:278-287`), which force-closes and emits every
chain of at least 3 points whose first and last points differ
(appending its first coordinate) and drops the rest — chains of fewer
than 3 points, and 3-point chains whose first and last points coincide.
Consequently every emitted ring satisfies first = last and has length
≥ 4 (`src/pip/geometry.rs:263-336`, `src/pip/boundary.rs:218-291`). -/
theorem c3_amended :
    (∀ (rings : List (List Coord)) (p : List Coord),
      p ∈ merge_rings_to_polygons rings →
      p.head? = p.getLast? ∧ 4 ≤ p.length) ∧
    (∀ c : List Coord, 3 ≤ c.length → c.head? ≠ c.getLast? →
      closeEmit c = [c ++ c.head?.toList]) ∧
    (∀ c : List Coord, c.head? = c.getLast? → 4 ≤ c.length →
      closeEmit c = [c]) ∧
    (∀ c : List Coord,
      c.length < 3 ∨ (c.length = 3 ∧ c.head? = c.getLast?) →
      closeEmit c = []) ∧
    (∀ c : List Coord, 3 ≤ c.length → c.head? ≠ c.getLast? →
      merge_rings_to_polygons [c] = [c ++ c.head?.toList]) := by
  refine ⟨?_, ?_, ?_, ?_, ?_⟩
  · intro rings p hp
    exact mergeLoop_closed _ rings p hp
  · intro c h3 h2
    exact closeEmit_open c h3 h2
  · intro c hcl h4
    exact closeEmit_already_closed c hcl h4
  · intro c h
    exact closeEmit_dropped c h
  · intro c h1 h2
    have hguard : ¬(c.head? = c.getLast? ∧ 4 ≤ c.length) :=
      fun h => h2 h.1
    show mergeLoop (1 + 1) [c] = [c ++ c.head?.toList]
    simp only [mergeLoop, if_neg hguard, List.length_nil, mergeChain,
      tryMergeOne, List.append_nil]
    exact closeEmit_open c h1 h2

/-- Witness for C3: the amended theorem applied to a concrete closed
square (global closedness), to the concrete open chain of the
counterexample (force-close, both at the close step and end-to-end
through the stitcher), and to a concrete 3-point already-closed chain
(dropped). -/
theorem c3_witness :
    (([((0 : ℚ), (0 : ℚ)), (2, 0), (2, 2), (0, 2), (0, 0)] :
        List Coord).head? =
      ([((0 : ℚ), (0 : ℚ)), (2, 0), (2, 2), (0, 2), (0, 0)] :
        List Coord).getLast? ∧
      4 ≤ ([((0 : ℚ), (0 : ℚ)), (2, 0), (2, 2), (0, 2), (0, 0)] :
        List Coord).length) ∧
    closeEmit [((5 : ℚ), (5 : ℚ)), (6, 5), (6, 6)] =
      [[((5 : ℚ), (5 : ℚ)), (6, 5), (6, 6)] ++
        ([((5 : ℚ), (5 : ℚ)), (6, 5), (6, 6)] :
          List Coord).head?.toList] ∧
    closeEmit [((0 : ℚ), (0 : ℚ)), (2, 0), (2, 2), (0, 2), (0, 0)] =
      [[((0 : ℚ), (0 : ℚ)), (2, 0), (2, 2), (0, 2), (0, 0)]] ∧
    closeEmit [((0 : ℚ), (0 : ℚ)), (1, 0), (0, 0)] = [] ∧
    merge_rings_to_polygons [[((5 : ℚ), (5 : ℚ)), (6, 5), (6, 6)]] =
      [[((5 : ℚ), (5 : ℚ)), (6, 5), (6, 6)] ++
        ([((5 : ℚ), (5 : ℚ)), (6, 5), (6, 6)] :
          List Coord).head?.toList] := by
  refine ⟨?_, ?_, ?_, ?_, ?_⟩
  · exact c3_amended.1
      [[((0 : ℚ), (0 : ℚ)), (2, 0), (2, 2), (0, 2), (0, 0)]]
      [((0 : ℚ), (0 : ℚ)), (2, 0), (2, 2), (0, 2), (0, 0)] (by decide)
  · exact c3_amended.2.1 [((5 : ℚ), (5 : ℚ)), (6, 5), (6, 6)]
      (by decide) (by decide)
  · exact c3_amended.2.2.1
      [((0 : ℚ), (0 : ℚ)), (2, 0), (2, 2), (0, 2), (0, 0)]
      (by decide) (by decide)
  · exact c3_amended.2.2.2.1 [((0 : ℚ), (0 : ℚ)), (1, 0), (0, 0)]
      (Or.inr ⟨by decide, by decide⟩)
  · exact c3_amended.2.2.2.2 [((5 : ℚ), (5 : ℚ)), (6, 5), (6, 6)]
      (by decide) (by decide)

/-- C9 counterexample.  A relation mapping to `AdminLevel::Country`
that carries none of `ISO3166-1`, `ISO3166-1:alpha2`, `ISO3166-1:alpha3`
is nevertheless kept by the extractor: the code never checks those tags
as a keep/drop condition (they only feed `abbr`), refuting the claim
that such relations are dropped. -/
theorem c9_counterexample :
    getTag c9Rel.tags ("ISO3166-1") = none ∧
    getTag c9Rel.tags ("ISO3166-1:alpha2") = none ∧
    getTag c9Rel.tags ("ISO3166-1:alpha3") = none ∧
    extract_admin_boundaries [c9Rel] ≠ [] ∧
    (extract_admin_boundaries [c9Rel]).map (fun b => b.area.level) =
      [AdminLevel.Country] := by
  refine ⟨by decide, by decide, by decide, by decide, by decide⟩

/-- C9 amended.  A relation whose `admin_level` maps to
`AdminLevel::Country` is kept by the pass-1 filter whenever it has
`boundary=administrative`, a parsable `admin_level`, and at least one
name; no `ISO3166-1*` tag is required (those tags only populate `abbr`)
(`src/pip/boundary.rs:47-113`). -/
theorem c9_amended (rel : OsmRelation) (level_str : String) (n : Nat)
    (hb : getTag rel.tags ("boundary") = some ("administrative"))
    (hl : getTag rel.tags ("admin_level") = some level_str)
    (hp : parseU8 level_str = some n)
    (hc : AdminLevel.from_osm_level n = some AdminLevel.Country)
    (hname : (buildArea rel.id AdminLevel.Country rel.tags).name ≠ []) :
    parseAdminRelation rel =
      some (buildArea rel.id AdminLevel.Country rel.tags) := by
  rw [parseAdminRelation, if_pos hb, hl]
  simp only [hp, hc, if_neg hname]

/-- Witness for C9: the amended theorem applied to the concrete
ISO-less Country relation. -/
theorem c9_witness :
    parseAdminRelation c9Rel =
      some (buildArea c9Rel.id AdminLevel.Country c9Rel.tags) :=
  c9_amended c9Rel ("2") 2 (by decide) (by decide) (by decide)
    (by decide) (by decide)

theorem runIndexerGo_spec {α : Type} (failP : α → Bool)
    (batch_size : Nat) :
    ∀ (docs buffer : List α) (ti te : Nat),
      runIndexerGo failP batch_size buffer ti te docs =
        (ti + buffer.length + docs.length,
         te + (buffer.filter failP).length + (docs.filter failP).length) := by
  intro docs
  induction docs with
  | nil =>
    intro buffer ti te
    rw [runIndexerGo]
    by_cases hb : buffer.isEmpty
    · rw [if_pos hb]
      have : buffer = [] := List.isEmpty_iff.mp hb
      subst this
      simp
    · rw [if_neg hb]
      simp [flushCounts]
  | cons d rest ih =>
    intro buffer ti te
    rw [runIndexerGo]
    by_cases hfull : batch_size ≤ (buffer ++ [d]).length
    · rw [if_pos hfull, ih]
      simp only [flushCounts, List.filter_append, List.length_append,
        List.length_cons, List.length_nil, List.filter_nil,
        List.filter_cons]
      by_cases hd : failP d <;> simp [hd] <;> omega
    · rw [if_neg hfull, ih]
      simp only [List.filter_append, List.length_append,
        List.length_cons, List.length_nil, List.filter_cons]
      by_cases hd : failP d <;> simp [hd] <;> omega

/-- C5 counterexample.  One submitted document whose bulk item fails:
`finish()` reports `(1, 1)`, so `indexed_count + error_count = 2 ≠ 1 =
documents_submitted`, refuting the claimed equation. -/
theorem c5_counterexample :
    run_indexer (fun b : Bool => b) 1 [true] = (1, 1) ∧
    ¬ ((run_indexer (fun b : Bool => b) 1 [true]).1 +
        (run_indexer (fun b : Bool => b) 1 [true]).2 =
      ([true] : List Bool).length) := by
  refine ⟨by decide, by decide⟩

/-- C5 amended.  At `finish()`, `indexed_count` equals the number of
documents submitted (every flushed document is counted, including the
per-item failures) and `error_count` counts per-item bulk failures, so
`indexed_count + error_count` equals documents submitted plus per-item
failures (`src/elasticsearch/bulk.rs:53-95,98-175`). -/
theorem c5_amended {α : Type} (failP : α → Bool) (batch_size : Nat)
    (docs : List α) :
    run_indexer failP batch_size docs =
      (docs.length, (docs.filter failP).length) ∧
    (run_indexer failP batch_size docs).1 +
        (run_indexer failP batch_size docs).2 =
      docs.length + (docs.filter failP).length := by
  have h := runIndexerGo_spec failP batch_size docs [] 0 0
  simp only [run_indexer]
  rw [h]
  simp

/-- C6.  The text-index serialization of `AdminEntry` omits `names` as
claimed, but the ingest pipeline's `upsert_admin_areas` writes the admin
parent to the KV `admin_areas` table with `serde_json::to_string`, the
default serialization, which also omits `names` — contradicting both
the claim and `AdminEntry`'s own doc comment, which mandates
`to_scylla_json()` for ScyllaDB storage (and whose output does include
`names`).  Evaluated at the concrete failing input `c6Place`. -/
theorem c6_kv_names_divergence :
    (upsert_admin_areas c6Place).map Prod.fst = ["relation/1"] ∧
    (upsert_admin_areas c6Place).map (fun kv => Json.keys kv.2) =
      [["name", "id"]] ∧
    ¬ ("names") ∈ Json.keys (AdminEntry.toJson c6Entry) ∧
    ("names") ∈ Json.keys (AdminEntry.to_scylla_json c6Entry) ∧
    c6Entry.names ≠ [] := by
  refine ⟨by decide, by decide, by decide, by decide, by decide⟩

theorem slotToId_spec (slot : Option AdminEntry) :
    slotSpec slot (slotToId slot) := by
  constructor
  · intro s
    constructor
    · intro h
      cases slot with
      | none => simp [slotToId] at h
      | some e =>
        cases hid : e.id with
        | none => simp [slotToId, hid] at h
        | some pid =>
          simp [slotToId, hid] at h
          exact ⟨e, pid, rfl, hid, h.symm⟩
    · rintro ⟨e, pid, rfl, hid, rfl⟩
      simp [slotToId, hid]
  · constructor
    · intro h
      cases slot with
      | none => exact Or.inl rfl
      | some e =>
        cases hid : e.id with
        | none => exact Or.inr ⟨e, rfl, hid⟩
        | some pid => simp [slotToId, hid] at h
    · rintro (rfl | ⟨e, rfl, hid⟩)
      · simp [slotToId]
      · simp [slotToId, hid]

/-- C10.  `NormalizedPlace::from_place` leaves every field other than
`parent` equal to the corresponding `Place` field, and each of the nine
parent slots becomes `"relation/<id>"` exactly when the slot holds an
entry whose id is present, `none` otherwise
(`src/models/normalized.rs:40-99`). -/
theorem c10_from_place (p : Place) :
    (NormalizedPlace.from_place p).source_id = p.source_id ∧
    (NormalizedPlace.from_place p).source_file = p.source_file ∧
    (NormalizedPlace.from_place p).import_timestamp =
      p.import_timestamp ∧
    (NormalizedPlace.from_place p).osm_type = p.osm_type ∧
    (NormalizedPlace.from_place p).osm_id = p.osm_id ∧
    (NormalizedPlace.from_place p).wikidata_id = p.wikidata_id ∧
    (NormalizedPlace.from_place p).importance = p.importance ∧
    (NormalizedPlace.from_place p).layer = p.layer ∧
    (NormalizedPlace.from_place p).categories = p.categories ∧
    (NormalizedPlace.from_place p).name = p.name ∧
    (NormalizedPlace.from_place p).phrase = p.phrase ∧
    (NormalizedPlace.from_place p).address = p.address ∧
    (NormalizedPlace.from_place p).center_point = p.center_point ∧
    (NormalizedPlace.from_place p).bbox = p.bbox ∧
    slotSpec p.parent.country
      (NormalizedPlace.from_place p).parent.country ∧
    slotSpec p.parent.macro_region
      (NormalizedPlace.from_place p).parent.macro_region ∧
    slotSpec p.parent.region
      (NormalizedPlace.from_place p).parent.region ∧
    slotSpec p.parent.macro_county
      (NormalizedPlace.from_place p).parent.macro_county ∧
    slotSpec p.parent.county
      (NormalizedPlace.from_place p).parent.county ∧
    slotSpec p.parent.local_admin
      (NormalizedPlace.from_place p).parent.local_admin ∧
    slotSpec p.parent.locality
      (NormalizedPlace.from_place p).parent.locality ∧
    slotSpec p.parent.borough
      (NormalizedPlace.from_place p).parent.borough ∧
    slotSpec p.parent.neighbourhood
      (NormalizedPlace.from_place p).parent.neighbourhood :=
  ⟨rfl, rfl, rfl, rfl, rfl, rfl, rfl, rfl, rfl, rfl, rfl, rfl, rfl, rfl,
   slotToId_spec _, slotToId_spec _, slotToId_spec _, slotToId_spec _,
   slotToId_spec _, slotToId_spec _, slotToId_spec _, slotToId_spec _,
   slotToId_spec _⟩

theorem resolve_if_larger_isSome {place_rank : Nat} {lv : Layer}
    {id : Option String} {map : List (String × AdminEntry)}
    {lang : Option String}
    (h : (resolve_if_larger place_rank lv id map lang).isSome) :
    get_layer_rank lv > place_rank := by
  by_cases hc : get_layer_rank lv > place_rank
  · exact hc
  · rw [resolve_if_larger, if_neg hc] at h
    cases h

theorem resolve_names_if_larger_isSome {place_rank : Nat} {lv : Layer}
    {id : Option String} {map : List (String × AdminEntry)}
    (h : (resolve_names_if_larger place_rank lv id map).isSome) :
    get_layer_rank lv > place_rank := by
  by_cases hc : get_layer_rank lv > place_rank
  · exact hc
  · rw [resolve_names_if_larger, if_neg hc] at h
    cases h

/-- C4.  Every populated parent field of a v1 or v2 search result
(country, region, county, locality, neighbourhood, and the `*_names`
maps in v2) requires the parent layer's rank to strictly exceed the
result's own layer rank, under the rank table of `get_layer_rank`
(`src/query/search.rs:511-559,628-642`).  Forward, autocomplete and
reverse all format results through these two functions. -/
theorem c4_rank_filter :
    (∀ (place : NormalizedPlace) (score : ℚ) (lang : Option String)
        (admin_map : List (String × AdminEntry)) (r : SearchResult),
      place_to_search_result place score lang admin_map = some r →
      (r.properties.country.isSome →
        get_layer_rank Layer.Country > get_layer_rank place.layer) ∧
      (r.properties.region.isSome →
        get_layer_rank Layer.Region > get_layer_rank place.layer) ∧
      (r.properties.county.isSome →
        get_layer_rank Layer.County > get_layer_rank place.layer) ∧
      (r.properties.locality.isSome →
        get_layer_rank Layer.Locality > get_layer_rank place.layer) ∧
      (r.properties.neighbourhood.isSome →
        get_layer_rank Layer.Neighbourhood >
          get_layer_rank place.layer)) ∧
    (∀ (place : NormalizedPlace) (score : ℚ) (lang : Option String)
        (admin_map : List (String × AdminEntry)) (r : SearchResultV2),
      place_to_search_result_v2 place score lang admin_map = some r →
      (r.properties.country.isSome →
        get_layer_rank Layer.Country > get_layer_rank place.layer) ∧
      (r.properties.country_names.isSome →
        get_layer_rank Layer.Country > get_layer_rank place.layer) ∧
      (r.properties.region.isSome →
        get_layer_rank Layer.Region > get_layer_rank place.layer) ∧
      (r.properties.region_names.isSome →
        get_layer_rank Layer.Region > get_layer_rank place.layer) ∧
      (r.properties.county.isSome →
        get_layer_rank Layer.County > get_layer_rank place.layer) ∧
      (r.properties.county_names.isSome →
        get_layer_rank Layer.County > get_layer_rank place.layer) ∧
      (r.properties.locality.isSome →
        get_layer_rank Layer.Locality > get_layer_rank place.layer) ∧
      (r.properties.locality_names.isSome →
        get_layer_rank Layer.Locality > get_layer_rank place.layer) ∧
      (r.properties.neighbourhood.isSome →
        get_layer_rank Layer.Neighbourhood >
          get_layer_rank place.layer) ∧
      (r.properties.neighbourhood_names.isSome →
        get_layer_rank Layer.Neighbourhood >
          get_layer_rank place.layer)) ∧
    (get_layer_rank Layer.Country = 100 ∧
     get_layer_rank Layer.MacroRegion = 90 ∧
     get_layer_rank Layer.Region = 80 ∧
     get_layer_rank Layer.MacroCounty = 70 ∧
     get_layer_rank Layer.County = 60 ∧
     get_layer_rank Layer.LocalAdmin = 50 ∧
     get_layer_rank Layer.Admin = 50 ∧
     get_layer_rank Layer.Locality = 40 ∧
     get_layer_rank Layer.Borough = 30 ∧
     get_layer_rank Layer.Neighbourhood = 20 ∧
     get_layer_rank Layer.Street = 10 ∧
     get_layer_rank Layer.Address = 10 ∧
     get_layer_rank Layer.Venue = 10) := by
  refine ⟨?_, ?_, by decide⟩
  · intro place score lang admin_map r h
    injection h with h
    subst h
    exact ⟨resolve_if_larger_isSome, resolve_if_larger_isSome,
      resolve_if_larger_isSome, resolve_if_larger_isSome,
      resolve_if_larger_isSome⟩
  · intro place score lang admin_map r h
    injection h with h
    subst h
    exact ⟨resolve_if_larger_isSome, resolve_names_if_larger_isSome,
      resolve_if_larger_isSome, resolve_names_if_larger_isSome,
      resolve_if_larger_isSome, resolve_names_if_larger_isSome,
      resolve_if_larger_isSome, resolve_names_if_larger_isSome,
      resolve_if_larger_isSome, resolve_names_if_larger_isSome⟩

/-- Witness for C4: for the concrete Region-layer result whose country
slot is populated, the theorem yields rank(Country) > rank(Region);
the county slot (rank 60 ≤ 80) is indeed left empty. -/
theorem c4_witness :
    (get_layer_rank Layer.Country > get_layer_rank c4Place.layer) ∧
    (place_to_search_result_core c4Place 1 none c4Map).properties.county
      = none := by
  constructor
  · exact (c4_rank_filter.1 c4Place 1 none c4Map
      (place_to_search_result_core c4Place 1 none c4Map) rfl).1
      (by decide)
  · decide

/-- C7 counterexample.  The replacement table loaded from the lines
`a => b` and `b => c` is `{a ↦ b, b ↦ c}`, and on it `normalize` is not
idempotent: `normalize "a" = "b"` but `normalize (normalize "a") = "c"`
(`src/ingest/synonyms.rs:62-138`). -/
theorem c7_counterexample :
    c7Table = [(("a").toList, ("b").toList),
      (("b").toList, ("c").toList)] ∧
    normalize c7Table (("a").toList) = ("b").toList ∧
    normalize c7Table (normalize c7Table (("a").toList)) ≠
      normalize c7Table (("a").toList) := by
  refine ⟨by decide, by decide, by decide⟩

/-- Tokens produced by the whitespace splitter are non-empty and free of
whitespace. -/
theorem splitWSGo_wf :
    ∀ (l acc : List Char), (∀ c ∈ acc, c.isWhitespace = false) →
      ∀ t ∈ splitWSGo acc l, t ≠ [] ∧ ∀ c ∈ t, c.isWhitespace = false := by
  intro l
  induction l with
  | nil =>
    intro acc hacc t ht
    rw [splitWSGo] at ht
    by_cases ha : acc = []
    · rw [if_pos ha] at ht
      simp at ht
    · rw [if_neg ha] at ht
      rcases List.mem_singleton.mp ht with rfl
      refine ⟨fun h => ha (List.reverse_eq_nil_iff.mp h), ?_⟩
      intro c hc
      exact hacc c (List.mem_reverse.mp hc)
  | cons c cs ih =>
    intro acc hacc t ht
    rw [splitWSGo] at ht
    by_cases hws : c.isWhitespace
    · rw [if_pos hws] at ht
      by_cases ha : acc = []
      · rw [if_pos ha] at ht
        exact ih [] (by simp) t ht
      · rw [if_neg ha] at ht
        rcases List.mem_cons.mp ht with rfl | ht'
        · refine ⟨fun h => ha (List.reverse_eq_nil_iff.mp h), ?_⟩
          intro d hd
          exact hacc d (List.mem_reverse.mp hd)
        · exact ih [] (by simp) t ht'
    · rw [if_neg hws] at ht
      refine ih (c :: acc) ?_ t ht
      intro d hd
      rcases List.mem_cons.mp hd with rfl | hd'
      · exact Bool.eq_false_iff.mpr hws
      · exact hacc d hd'

/-- Scanning a whitespace-free run moves it wholesale into the
accumulator. -/
theorem splitWSGo_token_append :
    ∀ (t acc l : List Char), (∀ c ∈ t, c.isWhitespace = false) →
      splitWSGo acc (t ++ l) = splitWSGo (t.reverse ++ acc) l := by
  intro t
  induction t with
  | nil => intro acc l _; simp
  | cons c t' ih =>
    intro acc l hwf
    have hc : c.isWhitespace = false := hwf c (List.mem_cons_self c t')
    rw [List.cons_append, splitWSGo, if_neg (by simp [hc])]
    rw [ih (c :: acc) l (fun d hd => hwf d (List.mem_cons_of_mem c hd))]
    simp [List.reverse_cons, List.append_assoc]

/-- A single non-empty whitespace-free token splits to itself. -/
theorem splitWS_token (t : List Char) (hne : t ≠ [])
    (hwf : ∀ c ∈ t, c.isWhitespace = false) : splitWS t = [t] := by
  have h1 : splitWS t = splitWSGo [] (t ++ []) := by
    rw [List.append_nil]; rfl
  rw [h1, splitWSGo_token_append t [] [] hwf, List.append_nil,
    splitWSGo]
  rw [if_neg (fun h => hne (List.reverse_eq_nil_iff.mp h))]
  rw [List.reverse_reverse]

/-- Splitting a single-space join of well-formed tokens recovers the
tokens. -/
theorem splitWS_joinSp :
    ∀ (ts : List (List Char)),
      (∀ t ∈ ts, t ≠ [] ∧ ∀ c ∈ t, c.isWhitespace = false) →
      splitWS (joinSp ts) = ts := by
  intro ts
  induction ts with
  | nil => intro _; rfl
  | cons t rest ih =>
    intro hwf
    have hthd := hwf t (List.mem_cons_self t rest)
    cases rest with
    | nil => exact splitWS_token t hthd.1 hthd.2
    | cons t' ts' =>
      have hrest : splitWS (joinSp (t' :: ts')) = t' :: ts' :=
        ih (fun u hu => hwf u (List.mem_cons_of_mem t hu))
      show splitWSGo [] (t ++ ' ' :: joinSp (t' :: ts')) = t :: t' :: ts'
      rw [splitWSGo_token_append t [] (' ' :: joinSp (t' :: ts'))
        hthd.2, List.append_nil, splitWSGo]
      rw [if_pos (by decide)]
      rw [if_neg (fun h => hthd.1 (List.reverse_eq_nil_iff.mp h))]
      rw [List.reverse_reverse]
      exact congrArg (t :: ·) hrest

/-- Joining concatenated non-empty groups inserts one separating
space. -/
theorem joinSp_append :
    ∀ (as bs : List (List Char)), as ≠ [] → bs ≠ [] →
      joinSp (as ++ bs) = joinSp as ++ ' ' :: joinSp bs := by
  intro as
  induction as with
  | nil => intro bs h _; exact absurd rfl h
  | cons a as' ih =>
    intro bs _ hbs
    cases as' with
    | nil =>
      cases bs with
      | nil => exact absurd rfl hbs
      | cons b bs' => rfl
    | cons a' as'' =>
      have h1 : joinSp ((a :: a' :: as'') ++ bs) =
          a ++ ' ' :: joinSp ((a' :: as'') ++ bs) := by
        rw [List.cons_append, List.cons_append]
        rfl
      rw [h1, ih bs (by simp) hbs]
      show a ++ ' ' :: (joinSp (a' :: as'') ++ ' ' :: joinSp bs) =
        (a ++ ' ' :: joinSp (a' :: as'')) ++ ' ' :: joinSp bs
      simp [List.append_assoc]

/-- Joining the per-group joins equals joining the flattened groups,
for non-empty groups. -/
theorem joinSp_flatten :
    ∀ (tss : List (List (List Char))), (∀ ts ∈ tss, ts ≠ []) →
      joinSp (tss.map joinSp) = joinSp tss.flatten := by
  intro tss
  induction tss with
  | nil => intro _; rfl
  | cons ts rest ih =>
    intro hne
    have hts : ts ≠ [] := hne ts (List.mem_cons_self ts rest)
    cases rest with
    | nil => simp [joinSp]
    | cons x xs =>
      have hx : x ≠ [] := hne x (by simp)
      have hflatten_ne : (x :: xs).flatten ≠ [] := by
        rw [List.flatten_cons]
        intro h
        exact hx (List.append_eq_nil.mp h).1
      have h1 : joinSp ((ts :: x :: xs).map joinSp) =
          joinSp ts ++ ' ' :: joinSp ((x :: xs).map joinSp) := rfl
      rw [h1, ih (fun u hu => hne u (List.mem_cons_of_mem ts hu))]
      have h2 : (ts :: x :: xs).flatten = ts ++ (x ++ xs.flatten) := by
        simp [List.flatten_cons]
      have h3 : x ++ xs.flatten ≠ [] := by
        rwa [List.flatten_cons] at hflatten_ne
      rw [h2, joinSp_append ts (x ++ xs.flatten) hts h3,
        List.flatten_cons]

/-- A successful table lookup exhibits a table entry. -/
theorem lookupRep_mem {repl : List (List Char × List Char)}
    {k v : List Char} (h : lookupRep repl k = some v) :
    (k, v) ∈ repl := by
  rw [lookupRep] at h
  cases hfind : repl.find? (fun kv => kv.1 = k) with
  | none => rw [hfind] at h; cases h
  | some kv =>
    rw [hfind] at h
    injection h with h
    have hmem := List.mem_of_find?_eq_some hfind
    have hprop : kv.1 = k := by simpa using List.find?_some hfind
    obtain ⟨k1, v1⟩ := kv
    simp only at hprop h
    subst hprop
    subst h
    exact hmem

/-- C7 amended.  `normalize` is idempotent for every replacement table
whose values are canonical (non-empty, single-space joins of their own
whitespace tokens) and closed (no value token's cleaned form is itself a
key); the counterexample's chained table `{a ↦ b, b ↦ c}` — loadable by
`load_file` — violates closedness and breaks idempotency, so the claim
holds only under these conditions (`src/ingest/synonyms.rs:62-138`). -/
theorem c7_amended (repl : List (List Char × List Char))
    (hcanon : ∀ kv ∈ repl, kv.2 ≠ [] ∧ joinSp (splitWS kv.2) = kv.2)
    (hclosed : ∀ kv ∈ repl, ∀ u ∈ splitWS kv.2,
      lookupRep repl (cleanToken u) = none)
    (s : List Char) :
    normalize repl (normalize repl s) = normalize repl s := by
  have hforall : ∀ p ∈ (splitWS s).map (applyRep repl),
      p ≠ [] ∧ joinSp (splitWS p) = p ∧
        ∀ u ∈ splitWS p, lookupRep repl (cleanToken u) = none := by
    intro p hp
    rcases List.mem_map.mp hp with ⟨t, ht, rfl⟩
    have htwf := splitWSGo_wf s [] (by simp) t ht
    cases hlk : lookupRep repl (cleanToken t) with
    | some r =>
      have happ : applyRep repl t = r := by
        rw [applyRep, hlk]
      have hkv := lookupRep_mem hlk
      rw [happ]
      exact ⟨(hcanon _ hkv).1, (hcanon _ hkv).2, hclosed _ hkv⟩
    | none =>
      have happ : applyRep repl t = t := by
        rw [applyRep, hlk]
      rw [happ]
      have hsplit_t : splitWS t = [t] := splitWS_token t htwf.1 htwf.2
      refine ⟨htwf.1, by rw [hsplit_t]; rfl, ?_⟩
      intro u hu
      rw [hsplit_t] at hu
      rcases List.mem_singleton.mp hu with rfl
      exact hlk
  have htss_ne : ∀ ts ∈ ((splitWS s).map (applyRep repl)).map splitWS,
      ts ≠ [] := by
    intro ts hts
    rcases List.mem_map.mp hts with ⟨p, hp, rfl⟩
    intro hnil
    have := (hforall p hp).2.1
    rw [hnil] at this
    exact (hforall p hp).1 this.symm
  have hstep1 : joinSp ((splitWS s).map (applyRep repl)) =
      joinSp (((splitWS s).map (applyRep repl)).map splitWS).flatten := by
    have hmapid : (((splitWS s).map (applyRep repl)).map splitWS).map
        joinSp = (splitWS s).map (applyRep repl) := by
      rw [List.map_map]
      have := List.map_congr_left
        (fun p hp => (hforall p hp).2.1)
      exact (this).trans (List.map_id _)
    calc joinSp ((splitWS s).map (applyRep repl))
        = joinSp ((((splitWS s).map (applyRep repl)).map splitWS).map
            joinSp) := by rw [hmapid]
      _ = joinSp (((splitWS s).map (applyRep repl)).map
            splitWS).flatten := joinSp_flatten _ htss_ne
  have hsplit : splitWS (joinSp ((splitWS s).map (applyRep repl))) =
      (((splitWS s).map (applyRep repl)).map splitWS).flatten := by
    rw [hstep1]
    apply splitWS_joinSp
    intro u hu
    rcases List.mem_flatten.mp hu with ⟨ts, hts, hu'⟩
    rcases List.mem_map.mp hts with ⟨p, hp, rfl⟩
    exact splitWSGo_wf p [] (by simp) u hu'
  have hfix : ∀ u ∈ (((splitWS s).map (applyRep repl)).map
      splitWS).flatten, applyRep repl u = u := by
    intro u hu
    rcases List.mem_flatten.mp hu with ⟨ts, hts, hu'⟩
    rcases List.mem_map.mp hts with ⟨p, hp, rfl⟩
    rw [applyRep, (hforall p hp).2.2 u hu']
  show joinSp ((splitWS (joinSp ((splitWS s).map
    (applyRep repl)))).map (applyRep repl)) =
    joinSp ((splitWS s).map (applyRep repl))
  rw [hsplit]
  rw [(List.map_congr_left hfix).trans (List.map_id _)]
  exact hstep1.symm

/-- Witness for C7: the amended idempotency theorem applied to the
concrete canonical closed table `{st ↦ street}` and the concrete input
`"Main st"`. -/
theorem c7_witness :
    normalize c7GoodTable
        (normalize c7GoodTable (("Main st").toList)) =
      normalize c7GoodTable (("Main st").toList) := by
  apply c7_amended
  · intro kv hkv
    rcases List.mem_singleton.mp hkv with rfl
    exact ⟨by decide, by decide⟩
  · intro kv hkv
    rcases List.mem_singleton.mp hkv with rfl
    intro u hu
    have hsp : splitWS (("street").toList) = [("street").toList] := by
      decide
    rw [hsp] at hu
    rcases List.mem_singleton.mp hu with rfl
    decide

/-- C8.  With a focus point supplied, the rescoring step returns a
permutation of the input in which each place's text score has been
multiplied by `decay + (1 − decay) · importance` — where `decay =
exp(−d²/(2·50²))`, `d` is the haversine distance from the focus to the
place's center and missing importance counts as 0 — and the output is
sorted by the rescored value descending
(`src/query/search.rs:297-328,706-720`). -/
theorem c8_focus_rescoring (ops : FloatOps) (focus : ℚ × ℚ)
    (places : List (NormalizedPlace × ℚ)) :
    (apply_focus_rescore ops focus places).Perm
      (places.map (fun ps =>
        (ps.1, ps.2 *
          (ops.exp (-(haversine_distance_km ops focus
              (ps.1.center_point.lat, ps.1.center_point.lon) *
            haversine_distance_km ops focus
              (ps.1.center_point.lat, ps.1.center_point.lon)) /
            (2 * 50 * 50)) +
          (1 - ops.exp (-(haversine_distance_km ops focus
              (ps.1.center_point.lat, ps.1.center_point.lon) *
            haversine_distance_km ops focus
              (ps.1.center_point.lat, ps.1.center_point.lon)) /
            (2 * 50 * 50))) * ps.1.importance.getD 0)))) ∧
    (apply_focus_rescore ops focus places).Pairwise
      (fun x y => y.2 ≤ x.2) := by
  constructor
  · exact insertionSort_perm scoreDescLe _
  · have hpw := pairwise_insertionSort scoreDescLe
      (fun a b => by
        rcases le_total b.2 a.2 with h | h <;> simp [scoreDescLe, h])
      (fun a b c hab hbc => by
        simp only [scoreDescLe, decide_eq_true_eq] at *
        exact le_trans hbc hab)
      (places.map (fun ps =>
        (ps.1, ps.2 * focusFinalFactor ops focus ps.1)))
    exact hpw.imp (fun h => by simpa [scoreDescLe] using h)

end Cypress




